import Mathlib

/-!
# Packet buffer pool (`buffer_pool.go`)

A shallow embedding of the reference-counted packet buffers and of the two `sync.Pool`
tiers they are recycled through, followed by the properties proved about them.

Modelling conventions.

* A `*packetBuffer` is an address into an explicit heap, so that two pool entries can
  be the same buffer.
* A `sync.Pool` is the list of values handed to `Put` and not yet taken by `Get`, plus
  the `New` constructor.  `Get` may return any cached value or ignore the cache; the
  caller of the model supplies that choice.  That the runtime may also discard cached
  values between calls is covered by the same choice: a discarded value is one that no
  `Get` picks.
* A panic stops the operation and leaves the mutations done so far in place, as the Go
  runtime does while unwinding.
* The platform is a 64-bit one.  `refCount` is a Go `int`: a value between `minInt` and
  `maxInt` on which `++` and `--` wrap around (`wrapInt`).  `make([]byte, 0, size)`
  panics when `size` exceeds the runtime's `maxAlloc`; running out of memory below that
  bound ends the process and is outside the embedding.
-/

namespace BufferPool

/-- Modelled from the spec: `protocol.ByteCount`, declared outside this file; the spec
uses it as a size in bytes, so it is a natural number here. -/
abbrev ByteCount := Nat

/-- A `[]byte` as the code observes it: the bytes within its length, and the capacity of
the backing array. -/
structure Slice where
  bytes : List Nat
  cap : Nat
deriving DecidableEq

/-- Go `len(d)`. -/
def Slice.len (d : Slice) : Nat := d.bytes.length

/-- The largest value of a Go `int` on a 64-bit platform, `1<<63 - 1`. -/
def maxInt : Int := 9223372036854775807

/-- The smallest value of a Go `int` on a 64-bit platform, `-1<<63`. -/
def minInt : Int := -9223372036854775808

/-- The value a Go `int` computation stores when its mathematical result is `x`:
two's-complement wrap-around into `minInt .. maxInt`. -/
def wrapInt (x : Int) : Int :=
  (x + 9223372036854775808) % 18446744073709551616 - 9223372036854775808

/-- The largest capacity the runtime accepts for a `[]byte` on a 64-bit platform, its
`maxAlloc` (`1 << 48`). -/
def maxAlloc : Nat := 281474976710656

/-- Go `make([]byte, 0, size)`: `none` when the runtime panics because the capacity is
out of range. -/
def Slice.make (size : Nat) : Option Slice :=
  if size ≤ maxAlloc then some { bytes := [], cap := size } else none

/-- Go `d[:0]`: length zero, same backing array. -/
def Slice.truncate (d : Slice) : Slice := { bytes := [], cap := d.cap }

/-- The struct `packetBuffer`. -/
structure packetBuffer where
  Data : Slice
  refCount : Int
  packetSize : ByteCount
deriving DecidableEq

/-- A `*packetBuffer`. -/
abbrev Ptr := Nat

/-- A `sync.Pool` holding `*packetBuffer` values.  `New` is `none` while the field is nil;
once set it is the closure built in `getPacketBuffer`, which is determined by the `size`
it captured. -/
structure Pool where
  items : List Ptr
  New : Option ByteCount
deriving DecidableEq

/-- Go `p.Put(b)`. -/
def Pool.Put (p : Pool) (b : Ptr) : Pool := { p with items := p.items ++ [b] }

/-- The cached value `p.Get()` hands out, with the pool left behind: `none` when the
cache is ignored or has no entry at the chosen place. -/
def Pool.take (p : Pool) (choice : Option Nat) : Option (Ptr × Pool) :=
  match choice with
  | none => none
  | some i =>
    match p.items[i]? with
    | none => none
    | some b => some (b, { p with items := p.items.eraseIdx i })

/-- The package-level variables together with the heap of allocated buffers. -/
structure State where
  heap : Ptr → packetBuffer
  next : Ptr
  bufferPool : Pool
  largeBufferPool : Pool
  getBufferOnce : Bool
  getLargeBufferOnce : Bool

/-- The state at program start: nothing allocated, empty pools, nothing bound. -/
def State.init : State :=
  { heap := fun _ => { Data := { bytes := [], cap := 0 }, refCount := 0, packetSize := 0 }
    next := 0
    bufferPool := { items := [], New := none }
    largeBufferPool := { items := [], New := none }
    getBufferOnce := false
    getLargeBufferOnce := false }

/-- Store `v` at address `b`. -/
def State.store (s : State) (b : Ptr) (v : packetBuffer) : State :=
  { s with heap := fun p => if p = b then v else s.heap p }

/-- The ways an operation can panic. -/
inductive Panic where
  | negativeRefCount
  | refCountNotZero
  | wrongSize
  | nilAssertion
  | makeslice
deriving DecidableEq

/-- What a method call leaves behind: the state, and the panic if it raised one. -/
structure Outcome where
  state : State
  panic : Option Panic

/-- What an acquisition hands back. -/
inductive Ret where
  | ok (b : Ptr)
  | panicked (e : Panic)
deriving DecidableEq

/-- `func (b *packetBuffer) Split()`. -/
def Split (s : State) (b : Ptr) : State :=
  s.store b { s.heap b with refCount := wrapInt ((s.heap b).refCount + 1) }

/-- `func (b *packetBuffer) Decrement()`. -/
def Decrement (s : State) (b : Ptr) : Outcome :=
  let s1 := s.store b { s.heap b with refCount := wrapInt ((s.heap b).refCount - 1) }
  if (s1.heap b).refCount < 0 then
    { state := s1, panic := some Panic.negativeRefCount }
  else
    { state := s1, panic := none }

/-- `func (b *packetBuffer) putBack()`; `MaxLargePacketBufferSize` is the constant of
package `protocol`, taken as a parameter. -/
def putBack (MaxLargePacketBufferSize : Nat) (s : State) (b : Ptr) : Outcome :=
  if (s.heap b).Data.cap = (s.heap b).packetSize then
    { state := { s with bufferPool := s.bufferPool.Put b }, panic := none }
  else if (s.heap b).Data.cap = MaxLargePacketBufferSize then
    { state := { s with largeBufferPool := s.largeBufferPool.Put b }, panic := none }
  else
    { state := s, panic := some Panic.wrongSize }

/-- `func (b *packetBuffer) MaybeRelease()`. -/
def MaybeRelease (MaxLargePacketBufferSize : Nat) (s : State) (b : Ptr) : Outcome :=
  if (s.heap b).refCount = 0 then
    putBack MaxLargePacketBufferSize s b
  else
    { state := s, panic := none }

/-- `func (b *packetBuffer) Release()`. -/
def Release (MaxLargePacketBufferSize : Nat) (s : State) (b : Ptr) : Outcome :=
  let r := Decrement s b
  match r.panic with
  | some e => { state := r.state, panic := some e }
  | none =>
    if (r.state.heap b).refCount ≠ 0 then
      { state := r.state, panic := some Panic.refCountNotZero }
    else
      putBack MaxLargePacketBufferSize r.state b

/-- `func (b *packetBuffer) Len()`. -/
def Len (s : State) (b : Ptr) : ByteCount := (s.heap b).Data.len

/-- `func (b *packetBuffer) Cap()`. -/
def Cap (s : State) (b : Ptr) : ByteCount := (s.heap b).Data.cap

/-- The two statements after `Get` in both acquisition functions:
`buf.refCount = 1; buf.Data = buf.Data[:0]`. -/
def resetBuf (s : State) (b : Ptr) : State :=
  s.store b { s.heap b with refCount := 1, Data := (s.heap b).Data.truncate }

/-- The struct literal of the bound constructor:
`&packetBuffer{packetSize: size, Data: make([]byte, 0, size)}`; `none` when `make`
panics. -/
def newBuffer (size : ByteCount) : Option packetBuffer :=
  match Slice.make size with
  | none => none
  | some d => some { Data := d, refCount := 0, packetSize := size }

/-- Allocate `v` at the next free address. -/
def State.alloc (s : State) (v : packetBuffer) : State :=
  { (s.store s.next v) with next := s.next + 1 }

/-- The call `getBufferOnce.Do(func() { bufferPool.New = ... })` in `getPacketBuffer`: the
first call binds the constructor to `size`, later calls do nothing. -/
def getBufferOnceDo (s : State) (size : ByteCount) : State :=
  if s.getBufferOnce then s
  else { s with bufferPool := { s.bufferPool with New := some size }, getBufferOnce := true }

/-- The call `getLargeBufferOnce.Do(func() { largeBufferPool.New = ... })` in
`getLargePacketBuffer`. -/
def getLargeBufferOnceDo (s : State) (size : ByteCount) : State :=
  if s.getLargeBufferOnce then s
  else { s with largeBufferPool := { s.largeBufferPool with New := some size },
                getLargeBufferOnce := true }

/-- `func getPacketBuffer(size protocol.ByteCount) *packetBuffer`.  `choice` resolves
what `bufferPool.Get()` does with its cache. -/
def getPacketBuffer (s : State) (size : ByteCount) (choice : Option Nat) : State × Ret :=
  let s1 : State := getBufferOnceDo s size
  match s1.bufferPool.take choice with
  | some (b, p) => (resetBuf { s1 with bufferPool := p } b, Ret.ok b)
  | none =>
    match s1.bufferPool.New with
    | none => (s1, Ret.panicked Panic.nilAssertion)
    | some k =>
      match newBuffer k with
      | none => (s1, Ret.panicked Panic.makeslice)
      | some v => (resetBuf (s1.alloc v) s1.next, Ret.ok s1.next)

/-- `func getLargePacketBuffer(size protocol.ByteCount) *packetBuffer`. -/
def getLargePacketBuffer (s : State) (size : ByteCount) (choice : Option Nat) : State × Ret :=
  let s1 : State := getLargeBufferOnceDo s size
  match s1.largeBufferPool.take choice with
  | some (b, p) => (resetBuf { s1 with largeBufferPool := p } b, Ret.ok b)
  | none =>
    match s1.largeBufferPool.New with
    | none => (s1, Ret.panicked Panic.nilAssertion)
    | some k =>
      match newBuffer k with
      | none => (s1, Ret.panicked Panic.makeslice)
      | some v => (resetBuf (s1.alloc v) s1.next, Ret.ok s1.next)

/-! ## Sequences of calls -/

/-- Continue with `f` unless `r` panicked. -/
def Outcome.andThen (r : Outcome) (f : State → Outcome) : Outcome :=
  match r.panic with
  | some e => { state := r.state, panic := some e }
  | none => f r.state

/-- The buffer `b` after `n` calls of `b.Split()`. -/
def splitN (s : State) (b : Ptr) : Nat → State
  | 0 => s
  | n + 1 => Split (splitN s b n) b

/-- One round `b.Decrement(); b.MaybeRelease()`. -/
def round (MaxLargePacketBufferSize : Nat) (s : State) (b : Ptr) : Outcome :=
  (Decrement s b).andThen (fun t => MaybeRelease MaxLargePacketBufferSize t b)

/-- The first `k` rounds of `b.Decrement(); b.MaybeRelease()`. -/
def rounds (MaxLargePacketBufferSize : Nat) (s : State) (b : Ptr) : Nat → Outcome
  | 0 => { state := s, panic := none }
  | k + 1 =>
    (rounds MaxLargePacketBufferSize s b k).andThen
      (fun t => round MaxLargePacketBufferSize t b)

/-- The two calls by which an owner gives up its reference. -/
inductive Drop where
  | Decrement
  | Release
deriving DecidableEq

/-- Perform one `Drop` on `b`. -/
def Drop.apply (MaxLargePacketBufferSize : Nat) (s : State) (b : Ptr) : Drop → Outcome
  | Drop.Decrement => BufferPool.Decrement s b
  | Drop.Release => BufferPool.Release MaxLargePacketBufferSize s b

/-- Perform a sequence of `Drop`s on `b`, stopping at the first panic. -/
def dropAll (MaxLargePacketBufferSize : Nat) (s : State) (b : Ptr) : List Drop → Outcome
  | [] => { state := s, panic := none }
  | d :: ds =>
    (d.apply MaxLargePacketBufferSize s b).andThen
      (fun t => dropAll MaxLargePacketBufferSize t b ds)

/-- A call into the package. -/
inductive Call where
  | getPacketBuffer (size : ByteCount) (choice : Option Nat)
  | getLargePacketBuffer (size : ByteCount) (choice : Option Nat)
  | Split (b : Ptr)
  | Decrement (b : Ptr)
  | MaybeRelease (b : Ptr)
  | Release (b : Ptr)

/-- The outcome of an acquisition, forgetting which buffer it returned. -/
def Outcome.ofAcquire (r : State × Ret) : Outcome :=
  match r.2 with
  | Ret.ok _ => { state := r.1, panic := none }
  | Ret.panicked e => { state := r.1, panic := some e }

/-- Perform one call. -/
def exec (MaxLargePacketBufferSize : Nat) (s : State) : Call → Outcome
  | Call.getPacketBuffer size choice => Outcome.ofAcquire (getPacketBuffer s size choice)
  | Call.getLargePacketBuffer size choice =>
    Outcome.ofAcquire (getLargePacketBuffer s size choice)
  | Call.Split b => { state := Split s b, panic := none }
  | Call.Decrement b => Decrement s b
  | Call.MaybeRelease b => MaybeRelease MaxLargePacketBufferSize s b
  | Call.Release b => Release MaxLargePacketBufferSize s b

/-- Perform a sequence of calls, stopping at the first panic. -/
def execAll (MaxLargePacketBufferSize : Nat) (s : State) : List Call → Outcome
  | [] => { state := s, panic := none }
  | c :: cs =>
    (exec MaxLargePacketBufferSize s c).andThen
      (fun t => execAll MaxLargePacketBufferSize t cs)

/-- The receiver of a method call is a buffer that has been allocated: a Go program only
holds pointers that an acquisition returned. -/
def Call.allocated (s : State) : Call → Prop
  | Call.getPacketBuffer _ _ => True
  | Call.getLargePacketBuffer _ _ => True
  | Call.Split b => b < s.next
  | Call.Decrement b => b < s.next
  | Call.MaybeRelease b => b < s.next
  | Call.Release b => b < s.next

/-- The states the package can be in: those reached from program start by calls on
allocated buffers.  A call that panicked counts, with the state it left behind, since a
caller may recover from the panic and go on. -/
inductive Reachable (MaxLargePacketBufferSize : Nat) : State → Prop where
  | init : Reachable MaxLargePacketBufferSize State.init
  | step (s : State) (c : Call) :
      Reachable MaxLargePacketBufferSize s → c.allocated s →
      Reachable MaxLargePacketBufferSize (exec MaxLargePacketBufferSize s c).state

/-- What every reachable state satisfies. -/
structure Inv (s : State) : Prop where
  std_bound : s.getBufferOnce = true → s.bufferPool.New ≠ none
  large_bound : s.getLargeBufferOnce = true → s.largeBufferPool.New ≠ none
  cap_eq : ∀ p, p < s.next → (s.heap p).Data.cap = (s.heap p).packetSize
  std_alloc : ∀ p, p ∈ s.bufferPool.items → p < s.next
  large_alloc : ∀ p, p ∈ s.largeBufferPool.items → p < s.next

/-- The postcondition of an acquisition from `pool` in state `s`, which handed out `b` and
left state `t`: the buffer is empty and singly referenced, and it is either a cached
entry of the pool with the capacity and `packetSize` it had, or a new allocation built by
the constructor the pool is bound to (`once` tells whether a binding existed before the
call, which otherwise binds `size`). -/
def Acquired (s : State) (pool : Pool) (once : Bool) (size : ByteCount) (choice : Option Nat)
    (t : State) (b : Ptr) : Prop :=
  Len t b = 0 ∧ (t.heap b).refCount = 1 ∧
  ((∃ i, choice = some i ∧ pool.items[i]? = some b ∧
      Cap t b = Cap s b ∧ (t.heap b).packetSize = (s.heap b).packetSize) ∨
   (pool.take choice = none ∧ b = s.next ∧
      Cap t b = (if once then pool.New.getD size else size) ∧
      (t.heap b).packetSize = (if once then pool.New.getD size else size)))

/-! ## Example states -/

/-- Program start followed by `getPacketBuffer(1200)`: buffer `0` is a new standard
buffer. -/
def standardExample : State := (getPacketBuffer State.init 1200 none).1

/-- Program start followed by `getLargePacketBuffer(16384)`: buffer `0` is a new large
buffer. -/
def largeExample : State := (getLargePacketBuffer State.init 16384 none).1

/-- Program start followed by `getPacketBuffer(1200)` and `getLargePacketBuffer(16384)`:
buffer `0` is a new standard buffer and buffer `1` a new large one. -/
def bothExample : State := (getLargePacketBuffer standardExample 16384 none).1

/-- The state `standardExample` after `Release` of buffer `0`: the standard pool holds
that buffer. -/
def recycledExample : State := (Release 20480 standardExample 0).state

/-- The size of the constructor that `bufferPool.Get()` finds bound when
`getPacketBuffer(size)` is called in state `s`: the one bound earlier, or `size` when this
call is the first. -/
def standardSize (s : State) (size : ByteCount) : ByteCount :=
  if s.getBufferOnce then s.bufferPool.New.getD size else size

/-- The size of the constructor that `largeBufferPool.Get()` finds bound when
`getLargePacketBuffer(size)` is called in state `s`. -/
def largeSize (s : State) (size : ByteCount) : ByteCount :=
  if s.getLargeBufferOnce then s.largeBufferPool.New.getD size else size

/-- No `Split` of the run `cs` from state `s` finds the count of buffer `p` at `maxInt`,
where `++` would wrap around. -/
def noSplitOverflow (MaxLargePacketBufferSize : Nat) (p : Ptr) : State → List Call → Prop
  | _, [] => True
  | s, c :: cs =>
    (c = Call.Split p → (s.heap p).refCount ≠ maxInt) ∧
    ((exec MaxLargePacketBufferSize s c).panic = none →
      noSplitOverflow MaxLargePacketBufferSize p (exec MaxLargePacketBufferSize s c).state cs)

/-- The state `standardExample` after `1<<63 - 2` calls of `Split` on buffer `0`: its
count is `maxInt`. -/
def saturatedExample : State := splitN standardExample 0 9223372036854775806

/-- The state `saturatedExample` after one more `Split` on buffer `0`: its count has
wrapped around to `minInt`. -/
def wrappedExample : State := Split saturatedExample 0

/-! ## Machine integers -/

theorem wrapInt_of_range (x : Int) (h1 : minInt ≤ x) (h2 : x ≤ maxInt) : wrapInt x = x := by
  simp only [wrapInt, minInt, maxInt] at *
  omega

theorem wrapInt_range (x : Int) : minInt ≤ wrapInt x ∧ wrapInt x ≤ maxInt := by
  simp only [wrapInt, minInt, maxInt]
  omega

theorem wrapInt_zero : wrapInt 0 = 0 := by decide

theorem wrapInt_succ_wrapInt (x : Int) : wrapInt (wrapInt x + 1) = wrapInt (x + 1) := by
  simp only [wrapInt]
  omega

theorem wrapInt_maxInt_succ : wrapInt (maxInt + 1) = minInt := by decide

theorem wrapInt_minInt_pred : wrapInt (minInt - 1) = maxInt := by decide

/-! ## Acquisition, case by case -/

theorem newBuffer_ok (k : ByteCount) (h : k ≤ maxAlloc) :
    newBuffer k = some { Data := { bytes := [], cap := k }, refCount := 0, packetSize := k } := by
  simp [newBuffer, Slice.make, h]

theorem newBuffer_panics (k : ByteCount) (h : maxAlloc < k) : newBuffer k = none := by
  have h1 : ¬ k ≤ maxAlloc := Nat.not_le.mpr h
  simp [newBuffer, Slice.make, h1]

theorem getBufferOnceDo_items (s : State) (size : ByteCount) :
    (getBufferOnceDo s size).bufferPool.items = s.bufferPool.items := by
  unfold getBufferOnceDo; split <;> rfl

theorem getBufferOnceDo_New (s : State) (size : ByteCount) :
    (getBufferOnceDo s size).bufferPool.New =
      if s.getBufferOnce then s.bufferPool.New else some size := by
  unfold getBufferOnceDo; split <;> rfl

theorem getBufferOnceDo_heap (s : State) (size : ByteCount) :
    (getBufferOnceDo s size).heap = s.heap ∧ (getBufferOnceDo s size).next = s.next ∧
    (getBufferOnceDo s size).largeBufferPool = s.largeBufferPool ∧
    (getBufferOnceDo s size).getLargeBufferOnce = s.getLargeBufferOnce ∧
    (getBufferOnceDo s size).getBufferOnce = true := by
  unfold getBufferOnceDo; split <;> simp_all

theorem take_cases (p : Pool) (choice : Option Nat) :
    p.take choice = none ∨ ∃ i b, choice = some i ∧ p.items[i]? = some b := by
  cases choice with
  | none => left; rfl
  | some i =>
    cases hi : p.items[i]? with
    | none => left; simp [Pool.take, hi]
    | some b => right; exact ⟨i, b, rfl, hi⟩

theorem take_none_of_items (p q : Pool) (choice : Option Nat) (h : q.items = p.items)
    (ht : p.take choice = none) : q.take choice = none := by
  cases choice with
  | none => rfl
  | some i =>
    simp only [Pool.take, h] at ht ⊢
    cases hi : p.items[i]? with
    | none => simp
    | some b => simp [hi] at ht

theorem getPacketBuffer_hit (s : State) (size : ByteCount) (i : Nat) (b : Ptr)
    (h : s.bufferPool.items[i]? = some b) :
    getPacketBuffer s size (some i) =
      (resetBuf { getBufferOnceDo s size with
          bufferPool := { items := s.bufferPool.items.eraseIdx i,
                          New := (getBufferOnceDo s size).bufferPool.New } } b, Ret.ok b) := by
  simp [getPacketBuffer, Pool.take, getBufferOnceDo_items, h]

theorem getPacketBuffer_miss (s : State) (size : ByteCount) (choice : Option Nat) (k : ByteCount)
    (h : s.bufferPool.take choice = none)
    (hk : (getBufferOnceDo s size).bufferPool.New = some k) (hm : k ≤ maxAlloc) :
    getPacketBuffer s size choice =
      (resetBuf ((getBufferOnceDo s size).alloc
        { Data := { bytes := [], cap := k }, refCount := 0, packetSize := k }) s.next,
       Ret.ok s.next) := by
  have h1 : (getBufferOnceDo s size).bufferPool.take choice = none :=
    take_none_of_items _ _ choice (getBufferOnceDo_items s size) h
  simp [getPacketBuffer, h1, hk, newBuffer_ok k hm, (getBufferOnceDo_heap s size).2.1]

theorem getPacketBuffer_makeslice (s : State) (size : ByteCount) (choice : Option Nat)
    (k : ByteCount) (h : s.bufferPool.take choice = none)
    (hk : (getBufferOnceDo s size).bufferPool.New = some k) (hm : maxAlloc < k) :
    getPacketBuffer s size choice =
      (getBufferOnceDo s size, Ret.panicked Panic.makeslice) := by
  have h1 : (getBufferOnceDo s size).bufferPool.take choice = none :=
    take_none_of_items _ _ choice (getBufferOnceDo_items s size) h
  simp [getPacketBuffer, h1, hk, newBuffer_panics k hm]

theorem getPacketBuffer_nil (s : State) (size : ByteCount) (choice : Option Nat)
    (h : s.bufferPool.take choice = none)
    (hk : (getBufferOnceDo s size).bufferPool.New = none) :
    getPacketBuffer s size choice =
      (getBufferOnceDo s size, Ret.panicked Panic.nilAssertion) := by
  have h1 : (getBufferOnceDo s size).bufferPool.take choice = none :=
    take_none_of_items _ _ choice (getBufferOnceDo_items s size) h
  simp [getPacketBuffer, h1, hk]

/-- The four ways a call of `getPacketBuffer` can go: a cached buffer, a nil constructor,
a constructor whose `make` panics, a new buffer. -/
theorem getPacketBuffer_cases (s : State) (size : ByteCount) (choice : Option Nat) :
    (∃ i b, choice = some i ∧ s.bufferPool.items[i]? = some b) ∨
    (s.bufferPool.take choice = none ∧ (getBufferOnceDo s size).bufferPool.New = none) ∨
    (∃ k, s.bufferPool.take choice = none ∧
      (getBufferOnceDo s size).bufferPool.New = some k ∧ maxAlloc < k) ∨
    (∃ k, s.bufferPool.take choice = none ∧
      (getBufferOnceDo s size).bufferPool.New = some k ∧ k ≤ maxAlloc) := by
  rcases take_cases s.bufferPool choice with ht | hhit
  · cases hn : (getBufferOnceDo s size).bufferPool.New with
    | none => exact Or.inr (Or.inl ⟨ht, rfl⟩)
    | some k =>
      rcases Nat.lt_or_ge maxAlloc k with hm | hm
      · exact Or.inr (Or.inr (Or.inl ⟨k, ht, rfl, hm⟩))
      · exact Or.inr (Or.inr (Or.inr ⟨k, ht, rfl, hm⟩))
  · exact Or.inl hhit

theorem getLargeBufferOnceDo_items (s : State) (size : ByteCount) :
    (getLargeBufferOnceDo s size).largeBufferPool.items = s.largeBufferPool.items := by
  unfold getLargeBufferOnceDo; split <;> rfl

theorem getLargeBufferOnceDo_New (s : State) (size : ByteCount) :
    (getLargeBufferOnceDo s size).largeBufferPool.New =
      if s.getLargeBufferOnce then s.largeBufferPool.New else some size := by
  unfold getLargeBufferOnceDo; split <;> rfl

theorem getLargeBufferOnceDo_heap (s : State) (size : ByteCount) :
    (getLargeBufferOnceDo s size).heap = s.heap ∧ (getLargeBufferOnceDo s size).next = s.next ∧
    (getLargeBufferOnceDo s size).bufferPool = s.bufferPool ∧
    (getLargeBufferOnceDo s size).getBufferOnce = s.getBufferOnce ∧
    (getLargeBufferOnceDo s size).getLargeBufferOnce = true := by
  unfold getLargeBufferOnceDo; split <;> simp_all

theorem getLargePacketBuffer_hit (s : State) (size : ByteCount) (i : Nat) (b : Ptr)
    (h : s.largeBufferPool.items[i]? = some b) :
    getLargePacketBuffer s size (some i) =
      (resetBuf { getLargeBufferOnceDo s size with
          largeBufferPool := { items := s.largeBufferPool.items.eraseIdx i,
                               New := (getLargeBufferOnceDo s size).largeBufferPool.New } } b,
        Ret.ok b) := by
  simp [getLargePacketBuffer, Pool.take, getLargeBufferOnceDo_items, h]

theorem getLargePacketBuffer_miss (s : State) (size : ByteCount) (choice : Option Nat) (k : ByteCount)
    (h : s.largeBufferPool.take choice = none)
    (hk : (getLargeBufferOnceDo s size).largeBufferPool.New = some k) (hm : k ≤ maxAlloc) :
    getLargePacketBuffer s size choice =
      (resetBuf ((getLargeBufferOnceDo s size).alloc
        { Data := { bytes := [], cap := k }, refCount := 0, packetSize := k }) s.next,
       Ret.ok s.next) := by
  have h1 : (getLargeBufferOnceDo s size).largeBufferPool.take choice = none :=
    take_none_of_items _ _ choice (getLargeBufferOnceDo_items s size) h
  simp [getLargePacketBuffer, h1, hk, newBuffer_ok k hm, (getLargeBufferOnceDo_heap s size).2.1]

theorem getLargePacketBuffer_makeslice (s : State) (size : ByteCount) (choice : Option Nat)
    (k : ByteCount) (h : s.largeBufferPool.take choice = none)
    (hk : (getLargeBufferOnceDo s size).largeBufferPool.New = some k) (hm : maxAlloc < k) :
    getLargePacketBuffer s size choice =
      (getLargeBufferOnceDo s size, Ret.panicked Panic.makeslice) := by
  have h1 : (getLargeBufferOnceDo s size).largeBufferPool.take choice = none :=
    take_none_of_items _ _ choice (getLargeBufferOnceDo_items s size) h
  simp [getLargePacketBuffer, h1, hk, newBuffer_panics k hm]

theorem getLargePacketBuffer_nil (s : State) (size : ByteCount) (choice : Option Nat)
    (h : s.largeBufferPool.take choice = none)
    (hk : (getLargeBufferOnceDo s size).largeBufferPool.New = none) :
    getLargePacketBuffer s size choice =
      (getLargeBufferOnceDo s size, Ret.panicked Panic.nilAssertion) := by
  have h1 : (getLargeBufferOnceDo s size).largeBufferPool.take choice = none :=
    take_none_of_items _ _ choice (getLargeBufferOnceDo_items s size) h
  simp [getLargePacketBuffer, h1, hk]

/-- The four ways a call of `getLargePacketBuffer` can go. -/
theorem getLargePacketBuffer_cases (s : State) (size : ByteCount) (choice : Option Nat) :
    (∃ i b, choice = some i ∧ s.largeBufferPool.items[i]? = some b) ∨
    (s.largeBufferPool.take choice = none ∧ (getLargeBufferOnceDo s size).largeBufferPool.New = none) ∨
    (∃ k, s.largeBufferPool.take choice = none ∧
      (getLargeBufferOnceDo s size).largeBufferPool.New = some k ∧ maxAlloc < k) ∨
    (∃ k, s.largeBufferPool.take choice = none ∧
      (getLargeBufferOnceDo s size).largeBufferPool.New = some k ∧ k ≤ maxAlloc) := by
  rcases take_cases s.largeBufferPool choice with ht | hhit
  · cases hn : (getLargeBufferOnceDo s size).largeBufferPool.New with
    | none => exact Or.inr (Or.inl ⟨ht, rfl⟩)
    | some k =>
      rcases Nat.lt_or_ge maxAlloc k with hm | hm
      · exact Or.inr (Or.inr (Or.inl ⟨k, ht, rfl, hm⟩))
      · exact Or.inr (Or.inr (Or.inr ⟨k, ht, rfl, hm⟩))
  · exact Or.inl hhit

/-! ## The invariant of reachable states -/

theorem Inv.init : Inv State.init := by
  constructor <;> simp [State.init]

theorem Inv.store {s : State} (h : Inv s) (b : Ptr) (v : packetBuffer)
    (hv : b < s.next → v.Data.cap = v.packetSize) : Inv (s.store b v) := by
  refine ⟨h.std_bound, h.large_bound, ?_, h.std_alloc, h.large_alloc⟩
  intro p hp
  by_cases hpb : p = b
  · subst hpb
    simpa [State.store] using hv hp
  · simpa [State.store, hpb] using h.cap_eq p hp

theorem Inv.Split {s : State} (h : Inv s) (b : Ptr) : Inv (Split s b) :=
  h.store b _ (fun hb => h.cap_eq b hb)

theorem Decrement_state (s : State) (b : Ptr) :
    (Decrement s b).state =
      s.store b { s.heap b with refCount := wrapInt ((s.heap b).refCount - 1) } := by
  unfold Decrement
  dsimp only
  split <;> rfl

theorem Inv.Decrement {s : State} (h : Inv s) (b : Ptr) : Inv (Decrement s b).state := by
  rw [Decrement_state]
  exact h.store b _ (fun hb => h.cap_eq b hb)

theorem Inv.putBack {s : State} (h : Inv s) (M : Nat) (b : Ptr) (hb : b < s.next) :
    Inv (putBack M s b).state := by
  unfold BufferPool.putBack
  split
  · refine ⟨h.std_bound, h.large_bound, h.cap_eq, ?_, h.large_alloc⟩
    intro p hp
    simp only [Pool.Put, List.mem_append, List.mem_singleton] at hp
    rcases hp with hp | hp
    · exact h.std_alloc p hp
    · exact hp ▸ hb
  · split
    · refine ⟨h.std_bound, h.large_bound, h.cap_eq, h.std_alloc, ?_⟩
      intro p hp
      simp only [Pool.Put, List.mem_append, List.mem_singleton] at hp
      rcases hp with hp | hp
      · exact h.large_alloc p hp
      · exact hp ▸ hb
    · exact h

theorem Inv.MaybeRelease {s : State} (h : Inv s) (M : Nat) (b : Ptr) (hb : b < s.next) :
    Inv (MaybeRelease M s b).state := by
  unfold BufferPool.MaybeRelease
  split
  · exact h.putBack M b hb
  · exact h

theorem Inv.Release {s : State} (h : Inv s) (M : Nat) (b : Ptr) (hb : b < s.next) :
    Inv (Release M s b).state := by
  have hd : Inv (BufferPool.Decrement s b).state := h.Decrement b
  have hn : b < (BufferPool.Decrement s b).state.next := by
    rw [Decrement_state]; exact hb
  unfold BufferPool.Release
  simp only
  split
  · exact hd
  · split
    · exact hd
    · exact hd.putBack M b hn

theorem Inv.getBufferOnceDo {s : State} (h : Inv s) (size : ByteCount) :
    Inv (getBufferOnceDo s size) := by
  unfold BufferPool.getBufferOnceDo
  split
  · exact h
  · exact ⟨fun _ => by simp, h.large_bound, h.cap_eq, h.std_alloc, h.large_alloc⟩

theorem Inv.getLargeBufferOnceDo {s : State} (h : Inv s) (size : ByteCount) :
    Inv (getLargeBufferOnceDo s size) := by
  unfold BufferPool.getLargeBufferOnceDo
  split
  · exact h
  · exact ⟨h.std_bound, fun _ => by simp, h.cap_eq, h.std_alloc, h.large_alloc⟩

theorem Inv.resetBuf {s : State} (h : Inv s) (b : Ptr) : Inv (resetBuf s b) :=
  h.store b _ (fun hb => h.cap_eq b hb)

theorem Inv.alloc {s : State} (h : Inv s) (v : packetBuffer)
    (hv : v.Data.cap = v.packetSize) : Inv (s.alloc v) := by
  refine ⟨h.std_bound, h.large_bound, ?_, ?_, ?_⟩
  · intro p hp
    by_cases hpn : p = s.next
    · simpa [State.alloc, State.store, hpn] using hv
    · have hlt : p < s.next := Nat.lt_of_le_of_ne (Nat.le_of_lt_succ hp) hpn
      simpa [State.alloc, State.store, hpn] using h.cap_eq p hlt
  · intro p hp
    exact Nat.lt_succ_of_lt (h.std_alloc p hp)
  · intro p hp
    exact Nat.lt_succ_of_lt (h.large_alloc p hp)

theorem Inv.getPacketBuffer {s : State} (h : Inv s) (size : ByteCount) (choice : Option Nat) :
    Inv (getPacketBuffer s size choice).1 := by
  have h1 : Inv (BufferPool.getBufferOnceDo s size) := h.getBufferOnceDo size
  rcases getPacketBuffer_cases s size choice with
    ⟨i, b, hc, hi⟩ | ⟨ht, hn⟩ | ⟨k, ht, hn, hm⟩ | ⟨k, ht, hn, hm⟩
  · subst hc
    rw [getPacketBuffer_hit s size i b hi]
    show Inv (BufferPool.resetBuf _ b)
    apply Inv.resetBuf
    refine ⟨?_, h1.large_bound, h1.cap_eq, ?_, h1.large_alloc⟩
    · intro _
      exact h1.std_bound (getBufferOnceDo_heap s size).2.2.2.2
    · intro p hp
      rw [(getBufferOnceDo_heap s size).2.1]
      exact h.std_alloc p (List.mem_of_mem_eraseIdx hp)
  · rw [getPacketBuffer_nil s size choice ht hn]
    exact h1
  · rw [getPacketBuffer_makeslice s size choice k ht hn hm]
    exact h1
  · rw [getPacketBuffer_miss s size choice k ht hn hm]
    exact (h1.alloc _ rfl).resetBuf _

theorem Inv.getLargePacketBuffer {s : State} (h : Inv s) (size : ByteCount)
    (choice : Option Nat) : Inv (getLargePacketBuffer s size choice).1 := by
  have h1 : Inv (BufferPool.getLargeBufferOnceDo s size) := h.getLargeBufferOnceDo size
  rcases getLargePacketBuffer_cases s size choice with
    ⟨i, b, hc, hi⟩ | ⟨ht, hn⟩ | ⟨k, ht, hn, hm⟩ | ⟨k, ht, hn, hm⟩
  · subst hc
    rw [getLargePacketBuffer_hit s size i b hi]
    show Inv (BufferPool.resetBuf _ b)
    apply Inv.resetBuf
    refine ⟨h1.std_bound, ?_, h1.cap_eq, h1.std_alloc, ?_⟩
    · intro _
      exact h1.large_bound (getLargeBufferOnceDo_heap s size).2.2.2.2
    · intro p hp
      rw [(getLargeBufferOnceDo_heap s size).2.1]
      exact h.large_alloc p (List.mem_of_mem_eraseIdx hp)
  · rw [getLargePacketBuffer_nil s size choice ht hn]
    exact h1
  · rw [getLargePacketBuffer_makeslice s size choice k ht hn hm]
    exact h1
  · rw [getLargePacketBuffer_miss s size choice k ht hn hm]
    exact (h1.alloc _ rfl).resetBuf _

theorem ofAcquire_state (r : State × Ret) : (Outcome.ofAcquire r).state = r.1 := by
  unfold Outcome.ofAcquire
  split <;> rfl

theorem Inv.exec {s : State} (h : Inv s) (M : Nat) (c : Call) (hc : c.allocated s) :
    Inv (exec M s c).state := by
  cases c with
  | getPacketBuffer size choice =>
    simp only [BufferPool.exec, ofAcquire_state]
    exact h.getPacketBuffer size choice
  | getLargePacketBuffer size choice =>
    simp only [BufferPool.exec, ofAcquire_state]
    exact h.getLargePacketBuffer size choice
  | Split b => exact h.Split b
  | Decrement b => exact h.Decrement b
  | MaybeRelease b => exact h.MaybeRelease M b hc
  | Release b => exact h.Release M b hc

theorem Reachable.inv {M : Nat} {s : State} (h : Reachable M s) : Inv s := by
  induction h with
  | init => exact Inv.init
  | step s c _ hc ih => exact ih.exec M c hc

/-! ## Effect of the reference-count operations -/

theorem splitN_frame (s : State) (b : Ptr) (n : Nat) :
    ((splitN s b n).heap b).Data = (s.heap b).Data ∧
    ((splitN s b n).heap b).packetSize = (s.heap b).packetSize ∧
    (splitN s b n).bufferPool = s.bufferPool ∧
    (splitN s b n).largeBufferPool = s.largeBufferPool := by
  induction n with
  | zero => simp [splitN]
  | succ n ih =>
    obtain ⟨h2, h3, h4, h5⟩ := ih
    refine ⟨?_, ?_, ?_, ?_⟩
    · simpa [splitN, Split, State.store] using h2
    · simpa [splitN, Split, State.store] using h3
    · simpa [splitN, Split, State.store] using h4
    · simpa [splitN, Split, State.store] using h5

theorem splitN_succ_count (s : State) (b : Ptr) (n : Nat) :
    ((splitN s b (n + 1)).heap b).refCount = wrapInt (((splitN s b n).heap b).refCount + 1) := by
  simp [splitN, Split, State.store]

/-- After `n` calls of `Split` the count is the wrapped sum. -/
theorem splitN_count (s : State) (b : Ptr) (n : Nat)
    (h1 : minInt ≤ (s.heap b).refCount) (h2 : (s.heap b).refCount ≤ maxInt) :
    ((splitN s b n).heap b).refCount = wrapInt ((s.heap b).refCount + n) := by
  induction n with
  | zero =>
    have : ((splitN s b 0).heap b).refCount = (s.heap b).refCount := rfl
    rw [this]
    simp only [Nat.cast_zero, add_zero]
    exact (wrapInt_of_range _ h1 h2).symm
  | succ n ih =>
    rw [splitN_succ_count, ih, wrapInt_succ_wrapInt]
    congr 1
    push_cast
    ring

theorem Decrement_count (s : State) (b : Ptr) :
    ((Decrement s b).state.heap b).refCount = wrapInt ((s.heap b).refCount - 1) ∧
    ((Decrement s b).state.heap b).Data = (s.heap b).Data ∧
    ((Decrement s b).state.heap b).packetSize = (s.heap b).packetSize ∧
    (Decrement s b).state.bufferPool = s.bufferPool ∧
    (Decrement s b).state.largeBufferPool = s.largeBufferPool := by
  rw [Decrement_state]
  simp [State.store]

theorem Decrement_ok (s : State) (b : Ptr) (h : 0 ≤ wrapInt ((s.heap b).refCount - 1)) :
    (Decrement s b).panic = none := by
  have h1 : ¬ wrapInt ((s.heap b).refCount - 1) < 0 := by omega
  simp [Decrement, State.store, h1]

theorem Decrement_negative (s : State) (b : Ptr) (h : wrapInt ((s.heap b).refCount - 1) < 0) :
    (Decrement s b).panic = some Panic.negativeRefCount := by
  simp [Decrement, State.store, h]

theorem Decrement_pos (s : State) (b : Ptr) (h : 1 ≤ (s.heap b).refCount)
    (hmax : (s.heap b).refCount ≤ maxInt) :
    (Decrement s b).panic = none ∧
    ((Decrement s b).state.heap b).refCount = (s.heap b).refCount - 1 ∧
    ((Decrement s b).state.heap b).Data = (s.heap b).Data ∧
    ((Decrement s b).state.heap b).packetSize = (s.heap b).packetSize ∧
    (Decrement s b).state.bufferPool = s.bufferPool ∧
    (Decrement s b).state.largeBufferPool = s.largeBufferPool := by
  have hw : wrapInt ((s.heap b).refCount - 1) = (s.heap b).refCount - 1 :=
    wrapInt_of_range _ (by simp only [minInt]; omega) (by omega)
  obtain ⟨d2, d3, d4, d5, d6⟩ := Decrement_count s b
  exact ⟨Decrement_ok s b (by rw [hw]; omega), d2.trans hw, d3, d4, d5, d6⟩

theorem MaybeRelease_pos (M : Nat) (s : State) (b : Ptr) (h : (s.heap b).refCount ≠ 0) :
    MaybeRelease M s b = { state := s, panic := none } := by
  simp [MaybeRelease, h]

theorem putBack_standard (M : Nat) (s : State) (b : Ptr)
    (h : (s.heap b).Data.cap = (s.heap b).packetSize) :
    putBack M s b = { state := { s with bufferPool := s.bufferPool.Put b }, panic := none } := by
  simp [putBack, h]

/-- A round whose `Decrement` leaves a positive count changes nothing but the count. -/
theorem round_wrap (M : Nat) (s : State) (b : Ptr)
    (h : 1 ≤ wrapInt ((s.heap b).refCount - 1)) :
    (round M s b).panic = none ∧
    ((round M s b).state.heap b).refCount = wrapInt ((s.heap b).refCount - 1) ∧
    ((round M s b).state.heap b).Data = (s.heap b).Data ∧
    ((round M s b).state.heap b).packetSize = (s.heap b).packetSize ∧
    (round M s b).state.bufferPool = s.bufferPool ∧
    (round M s b).state.largeBufferPool = s.largeBufferPool := by
  obtain ⟨d2, d3, d4, d5, d6⟩ := Decrement_count s b
  have d1 := Decrement_ok s b (by omega)
  have hne : ((Decrement s b).state.heap b).refCount ≠ 0 := by rw [d2]; omega
  simp only [round, Outcome.andThen, d1, MaybeRelease_pos M _ b hne]
  exact ⟨trivial, d2, d3, d4, d5, d6⟩

theorem round_pos (M : Nat) (s : State) (b : Ptr) (h : 2 ≤ (s.heap b).refCount)
    (hmax : (s.heap b).refCount ≤ maxInt) :
    (round M s b).panic = none ∧
    ((round M s b).state.heap b).refCount = (s.heap b).refCount - 1 ∧
    ((round M s b).state.heap b).Data = (s.heap b).Data ∧
    ((round M s b).state.heap b).packetSize = (s.heap b).packetSize ∧
    (round M s b).state.bufferPool = s.bufferPool ∧
    (round M s b).state.largeBufferPool = s.largeBufferPool := by
  have hw : wrapInt ((s.heap b).refCount - 1) = (s.heap b).refCount - 1 :=
    wrapInt_of_range _ (by simp only [minInt]; omega) (by omega)
  obtain ⟨r1, r2, r3, r4, r5, r6⟩ := round_wrap M s b (by rw [hw]; omega)
  exact ⟨r1, r2.trans hw, r3, r4, r5, r6⟩

theorem round_last (M : Nat) (s : State) (b : Ptr) (h : (s.heap b).refCount = 1)
    (hcap : (s.heap b).Data.cap = (s.heap b).packetSize) :
    (round M s b).panic = none ∧
    ((round M s b).state.heap b).refCount = 0 ∧
    (round M s b).state.bufferPool.items = s.bufferPool.items ++ [b] ∧
    (round M s b).state.largeBufferPool = s.largeBufferPool := by
  obtain ⟨d1, d2, d3, d4, d5, d6⟩ :=
    Decrement_pos s b (by omega) (by rw [h]; decide)
  have h0 : ((Decrement s b).state.heap b).refCount = 0 := by rw [d2]; omega
  have hc : ((Decrement s b).state.heap b).Data.cap =
      ((Decrement s b).state.heap b).packetSize := by rw [d3, d4]; exact hcap
  have hr : round M s b =
      { state := { (Decrement s b).state with
                   bufferPool := (Decrement s b).state.bufferPool.Put b },
        panic := none } := by
    simp only [round, Outcome.andThen, d1, MaybeRelease, h0, if_true,
      putBack_standard M _ b hc]
  rw [hr]
  exact ⟨rfl, h0, by simp [Pool.Put, d5], d6⟩

/-- The rounds `1 .. n` on a buffer whose first `Decrement` leaves the count `n`. -/
theorem rounds_spec (M : Nat) (s : State) (b : Ptr) (n : Nat)
    (h : wrapInt ((s.heap b).refCount - 1) = (n : Int)) (hn : (n : Int) ≤ maxInt)
    (k : Nat) (hk : k + 1 ≤ n) :
    (rounds M s b (k + 1)).panic = none ∧
    ((rounds M s b (k + 1)).state.heap b).refCount = (n : Int) + 1 - (k + 1 : Nat) ∧
    ((rounds M s b (k + 1)).state.heap b).Data = (s.heap b).Data ∧
    ((rounds M s b (k + 1)).state.heap b).packetSize = (s.heap b).packetSize ∧
    (rounds M s b (k + 1)).state.bufferPool = s.bufferPool ∧
    (rounds M s b (k + 1)).state.largeBufferPool = s.largeBufferPool := by
  induction k with
  | zero =>
    obtain ⟨r1, r2, r3, r4, r5, r6⟩ := round_wrap M s b (by rw [h]; omega)
    have hr : rounds M s b (0 + 1) = round M s b := by
      simp only [rounds, Outcome.andThen]
    rw [hr]
    refine ⟨r1, ?_, r3, r4, r5, r6⟩
    rw [r2, h]
    push_cast
    ring
  | succ k ih =>
    obtain ⟨i1, i2, i3, i4, i5, i6⟩ := ih (by omega)
    have hc : ((rounds M s b (k + 1)).state.heap b).refCount = (n : Int) - k := by
      rw [i2]; push_cast; ring
    obtain ⟨r1, r2, r3, r4, r5, r6⟩ :=
      round_pos M (rounds M s b (k + 1)).state b (by rw [hc]; omega) (by rw [hc]; omega)
    have hr : rounds M s b (k + 1 + 1) = round M (rounds M s b (k + 1)).state b := by
      simp only [rounds, Outcome.andThen, i1]
      have := i1
      simp only [rounds, Outcome.andThen] at this
      simp only [this]
    rw [hr]
    refine ⟨r1, ?_, r3.trans i3, r4.trans i4, r5.trans i5, r6.trans i6⟩
    rw [r2, hc]
    push_cast
    ring

/-! ## What an acquisition returns -/

theorem getBufferOnceDo_bound (s : State) (size : ByteCount)
    (hstd : s.getBufferOnce = true → s.bufferPool.New ≠ none) :
    (getBufferOnceDo s size).bufferPool.New = some (standardSize s size) := by
  rw [getBufferOnceDo_New]
  unfold standardSize
  cases ho : s.getBufferOnce with
  | false => simp
  | true =>
    cases hn : s.bufferPool.New with
    | none => exact absurd hn (hstd ho)
    | some k => simp

theorem getLargeBufferOnceDo_bound (s : State) (size : ByteCount)
    (hlarge : s.getLargeBufferOnce = true → s.largeBufferPool.New ≠ none) :
    (getLargeBufferOnceDo s size).largeBufferPool.New = some (largeSize s size) := by
  rw [getLargeBufferOnceDo_New]
  unfold largeSize
  cases ho : s.getLargeBufferOnce with
  | false => simp
  | true =>
    cases hn : s.largeBufferPool.New with
    | none => exact absurd hn (hlarge ho)
    | some k => simp

theorem getPacketBuffer_acquired (s : State) (size : ByteCount) (choice : Option Nat)
    (hstd : s.getBufferOnce = true → s.bufferPool.New ≠ none)
    (hret : s.bufferPool.take choice ≠ none ∨ standardSize s size ≤ maxAlloc) :
    ∃ b, (getPacketBuffer s size choice).2 = Ret.ok b ∧
      Acquired s s.bufferPool s.getBufferOnce size choice (getPacketBuffer s size choice).1 b := by
  have hk := getBufferOnceDo_bound s size hstd
  rcases take_cases s.bufferPool choice with h | ⟨i, b, hc, hi⟩
  · have hm : standardSize s size ≤ maxAlloc := by
      rcases hret with hret | hret
      · exact absurd h hret
      · exact hret
    rw [getPacketBuffer_miss s size choice _ h hk hm]
    refine ⟨s.next, rfl, ?_⟩
    simp [Acquired, h, resetBuf, State.alloc, State.store, Slice.truncate, Len, Cap,
      Slice.len, standardSize, (getBufferOnceDo_heap s size).2.1]
  · subst hc
    rw [getPacketBuffer_hit s size i b hi]
    refine ⟨b, rfl, ?_⟩
    simp [Acquired, hi, resetBuf, State.store, Slice.truncate, Len, Cap, Slice.len,
      (getBufferOnceDo_heap s size).1]

theorem getLargePacketBuffer_acquired (s : State) (size : ByteCount) (choice : Option Nat)
    (hlarge : s.getLargeBufferOnce = true → s.largeBufferPool.New ≠ none)
    (hret : s.largeBufferPool.take choice ≠ none ∨ largeSize s size ≤ maxAlloc) :
    ∃ b, (getLargePacketBuffer s size choice).2 = Ret.ok b ∧
      Acquired s s.largeBufferPool s.getLargeBufferOnce size choice
        (getLargePacketBuffer s size choice).1 b := by
  have hk := getLargeBufferOnceDo_bound s size hlarge
  rcases take_cases s.largeBufferPool choice with h | ⟨i, b, hc, hi⟩
  · have hm : largeSize s size ≤ maxAlloc := by
      rcases hret with hret | hret
      · exact absurd h hret
      · exact hret
    rw [getLargePacketBuffer_miss s size choice _ h hk hm]
    refine ⟨s.next, rfl, ?_⟩
    simp [Acquired, h, resetBuf, State.alloc, State.store, Slice.truncate, Len, Cap,
      Slice.len, largeSize, (getLargeBufferOnceDo_heap s size).2.1]
  · subst hc
    rw [getLargePacketBuffer_hit s size i b hi]
    refine ⟨b, rfl, ?_⟩
    simp [Acquired, hi, resetBuf, State.store, Slice.truncate, Len, Cap, Slice.len,
      (getLargeBufferOnceDo_heap s size).1]

theorem getPacketBuffer_panics (s : State) (size : ByteCount) (choice : Option Nat)
    (hstd : s.getBufferOnce = true → s.bufferPool.New ≠ none)
    (ht : s.bufferPool.take choice = none) (hm : maxAlloc < standardSize s size) :
    (getPacketBuffer s size choice).2 = Ret.panicked Panic.makeslice := by
  rw [getPacketBuffer_makeslice s size choice _ ht (getBufferOnceDo_bound s size hstd) hm]

theorem getLargePacketBuffer_panics (s : State) (size : ByteCount) (choice : Option Nat)
    (hlarge : s.getLargeBufferOnce = true → s.largeBufferPool.New ≠ none)
    (ht : s.largeBufferPool.take choice = none) (hm : maxAlloc < largeSize s size) :
    (getLargePacketBuffer s size choice).2 = Ret.panicked Panic.makeslice := by
  rw [getLargePacketBuffer_makeslice s size choice _ ht
    (getLargeBufferOnceDo_bound s size hlarge) hm]

/-- In a state satisfying the invariant, a call of `getPacketBuffer` that takes a cached
buffer or whose constructor can allocate returns an allocated buffer with one reference
whose capacity equals its `packetSize`; a new buffer is in no position of the standard
pool. -/
theorem getPacketBuffer_ok {s : State} (h : Inv s) (size : ByteCount) (choice : Option Nat)
    (hret : s.bufferPool.take choice ≠ none ∨ standardSize s size ≤ maxAlloc) :
    ∃ b, (getPacketBuffer s size choice).2 = Ret.ok b ∧
      b < (getPacketBuffer s size choice).1.next ∧
      ((getPacketBuffer s size choice).1.heap b).refCount = 1 ∧
      ((getPacketBuffer s size choice).1.heap b).Data.cap =
        ((getPacketBuffer s size choice).1.heap b).packetSize ∧
      (s.bufferPool.take choice = none →
        b ∉ (getPacketBuffer s size choice).1.bufferPool.items) := by
  have hinv : Inv (getPacketBuffer s size choice).1 := h.getPacketBuffer size choice
  have hk := getBufferOnceDo_bound s size h.std_bound
  obtain ⟨b, hb, hacq⟩ := getPacketBuffer_acquired s size choice h.std_bound hret
  have hlt : b < (getPacketBuffer s size choice).1.next ∧
      (s.bufferPool.take choice = none →
        b ∉ (getPacketBuffer s size choice).1.bufferPool.items) := by
    rcases take_cases s.bufferPool choice with ht | ⟨i, c, hc, hi⟩
    · have hm : standardSize s size ≤ maxAlloc := by
        rcases hret with hret | hret
        · exact absurd ht hret
        · exact hret
      rw [getPacketBuffer_miss s size choice _ ht hk hm] at hb ⊢
      have hbn : s.next = b := by simpa using hb
      subst hbn
      refine ⟨by simp [resetBuf, State.alloc, State.store, (getBufferOnceDo_heap s size).2.1],
        fun _ hmem => ?_⟩
      have hmem2 : s.next ∈ s.bufferPool.items := by
        simpa [resetBuf, State.alloc, State.store, getBufferOnceDo_items] using hmem
      exact absurd (h.std_alloc _ hmem2) (Nat.lt_irrefl _)
    · subst hc
      have hne : s.bufferPool.take (some i) ≠ none := by simp [Pool.take, hi]
      rw [getPacketBuffer_hit s size i c hi] at hb ⊢
      have hbc : c = b := by simpa using hb
      subst hbc
      refine ⟨?_, fun ht => absurd ht hne⟩
      simpa [resetBuf, State.store, (getBufferOnceDo_heap s size).2.1]
        using h.std_alloc c (List.getElem?_mem hi)
  exact ⟨b, hb, hlt.1, hacq.2.1, hinv.cap_eq b hlt.1, hlt.2⟩

theorem Release_one (M : Nat) (s : State) (b : Ptr) (h : (s.heap b).refCount = 1)
    (hcap : (s.heap b).Data.cap = (s.heap b).packetSize) :
    (Release M s b).panic = none ∧
    ((Release M s b).state.heap b).refCount = 0 ∧
    (Release M s b).state.bufferPool.items = s.bufferPool.items ++ [b] ∧
    (Release M s b).state.largeBufferPool = s.largeBufferPool := by
  simp [Release, Decrement, State.store, putBack, Pool.Put, h, hcap, wrapInt_zero]

theorem Release_shared (M : Nat) (s : State) (b : Ptr) (h : 2 ≤ (s.heap b).refCount)
    (hmax : (s.heap b).refCount ≤ maxInt) :
    (Release M s b).panic = some Panic.refCountNotZero := by
  have hw : wrapInt ((s.heap b).refCount - 1) = (s.heap b).refCount - 1 :=
    wrapInt_of_range _ (by simp only [minInt]; omega) (by omega)
  have h1 : ¬ wrapInt ((s.heap b).refCount - 1) < 0 := by rw [hw]; omega
  have h2 : wrapInt ((s.heap b).refCount - 1) ≠ 0 := by rw [hw]; omega
  simp [Release, Decrement, State.store, h1, h2]

theorem dropAll_Decrement_panic (M : Nat) (s : State) (b : Ptr) (ds : List Drop)
    (e : Panic) (h : (Decrement s b).panic = some e) :
    dropAll M s b (Drop.Decrement :: ds) =
      { state := (Decrement s b).state, panic := some e } := by
  simp only [dropAll, Drop.apply, Outcome.andThen, h]

theorem dropAll_Decrement_ok (M : Nat) (s : State) (b : Ptr) (ds : List Drop)
    (h : (Decrement s b).panic = none) :
    dropAll M s b (Drop.Decrement :: ds) = dropAll M (Decrement s b).state b ds := by
  simp only [dropAll, Drop.apply, Outcome.andThen, h]

theorem dropAll_Release_ok (M : Nat) (s : State) (b : Ptr) (ds : List Drop)
    (h : (Release M s b).panic = none) :
    dropAll M s b (Drop.Release :: ds) = dropAll M (Release M s b).state b ds := by
  simp only [dropAll, Drop.apply, Outcome.andThen, h]

theorem dropAll_Release_panic (M : Nat) (s : State) (b : Ptr) (ds : List Drop)
    (e : Panic) (h : (Release M s b).panic = some e) :
    dropAll M s b (Drop.Release :: ds) = { state := (Release M s b).state, panic := some e } := by
  simp only [dropAll, Drop.apply, Outcome.andThen, h]

theorem dropAll_nil (M : Nat) (s : State) (b : Ptr) :
    dropAll M s b [] = { state := s, panic := none } := rfl

theorem dropAll_decrements_release (M : Nat) (b : Ptr) (n : Nat) :
    ∀ s : State, (s.heap b).refCount = (n : Int) + 1 → (n : Int) + 1 ≤ maxInt →
      (s.heap b).Data.cap = (s.heap b).packetSize →
      (dropAll M s b (List.replicate n Drop.Decrement ++ [Drop.Release])).panic = none ∧
      ((dropAll M s b (List.replicate n Drop.Decrement ++ [Drop.Release])).state.heap b).refCount
        = 0 ∧
      (dropAll M s b (List.replicate n Drop.Decrement ++ [Drop.Release])).state.bufferPool.items
        = s.bufferPool.items ++ [b] ∧
      (dropAll M s b (List.replicate n Drop.Decrement ++ [Drop.Release])).state.largeBufferPool
        = s.largeBufferPool := by
  induction n with
  | zero =>
    intro s h _ hcap
    obtain ⟨r1, r2, r3, r4⟩ := Release_one M s b (by simpa using h) hcap
    rw [List.replicate_zero, List.nil_append, dropAll_Release_ok M s b [] r1,
      dropAll_nil]
    exact ⟨rfl, r2, r3, r4⟩
  | succ n ih =>
    intro s h hmax hcap
    obtain ⟨d1, d2, d3, d4, d5, d6⟩ :=
      Decrement_pos s b (by rw [h]; omega) (by rw [h]; exact hmax)
    have hrc : ((Decrement s b).state.heap b).refCount = (n : Int) + 1 := by
      rw [d2, h]; push_cast; ring
    have hc : ((Decrement s b).state.heap b).Data.cap =
        ((Decrement s b).state.heap b).packetSize := by rw [d3, d4]; exact hcap
    obtain ⟨i1, i2, i3, i4⟩ :=
      ih (Decrement s b).state hrc (by push_cast at hmax; omega) hc
    rw [List.replicate_succ, List.cons_append,
      dropAll_Decrement_ok M s b _ d1]
    exact ⟨i1, i2, by rw [d5] at i3; exact i3, i4.trans d6⟩

/-- Among the sequences of `n + 1` calls of `Decrement` or `Release` on a buffer holding
`n + 1` references, the one made of `n` calls of `Decrement` and a final `Release` is the
only one that ends without a panic and with the buffer in the standard pool. -/
theorem dropAll_returns_iff (M : Nat) (b : Ptr) (n : Nat) :
    ∀ (s : State) (ds : List Drop), ds.length = n + 1 →
      (s.heap b).refCount = (n : Int) + 1 → (n : Int) + 1 ≤ maxInt →
      (s.heap b).Data.cap = (s.heap b).packetSize →
      (((dropAll M s b ds).panic = none ∧
        (dropAll M s b ds).state.bufferPool.items = s.bufferPool.items ++ [b]) ↔
       ds = List.replicate n Drop.Decrement ++ [Drop.Release]) := by
  induction n with
  | zero =>
    intro s ds hlen h hmax hcap
    match ds, hlen with
    | [d], _ =>
      cases d with
      | Decrement =>
        obtain ⟨d1, _, _, _, d5, _⟩ :=
          Decrement_pos s b (by rw [h]; simp) (by rw [h]; exact hmax)
        rw [dropAll_Decrement_ok M s b [] d1, dropAll_nil]
        simp [d5]
      | Release =>
        obtain ⟨r1, _, r3, _⟩ := Release_one M s b (by simpa using h) hcap
        rw [dropAll_Release_ok M s b [] r1, dropAll_nil]
        simp [r3]
  | succ n ih =>
    intro s ds hlen h hmax hcap
    match ds, hlen with
    | d :: ds, hlen =>
      have hl : ds.length = n + 1 := by simpa using hlen
      cases d with
      | Decrement =>
        obtain ⟨d1, d2, d3, d4, d5, _⟩ :=
          Decrement_pos s b (by rw [h]; omega) (by rw [h]; exact hmax)
        have hrc : ((Decrement s b).state.heap b).refCount = (n : Int) + 1 := by
          rw [d2, h]; push_cast; ring
        have hc : ((Decrement s b).state.heap b).Data.cap =
            ((Decrement s b).state.heap b).packetSize := by rw [d3, d4]; exact hcap
        have := ih (Decrement s b).state ds hl hrc (by push_cast at hmax; omega) hc
        rw [dropAll_Decrement_ok M s b ds d1, List.replicate_succ, List.cons_append]
        have hiff : ds = List.replicate n Drop.Decrement ++ [Drop.Release] ↔
            Drop.Decrement :: ds =
              Drop.Decrement :: (List.replicate n Drop.Decrement ++ [Drop.Release]) := by
          simp
        rw [← hiff, ← this, d5]
      | Release =>
        have hp := Release_shared M s b (by rw [h]; omega) (by rw [h]; exact hmax)
        rw [dropAll_Release_panic M s b ds _ hp, List.replicate_succ,
          List.cons_append]
        simp

/-! ## The constructor binding -/

theorem putBack_binding (M : Nat) (s : State) (b : Ptr) :
    (putBack M s b).state.heap = s.heap ∧
    (putBack M s b).state.getBufferOnce = s.getBufferOnce ∧
    (putBack M s b).state.bufferPool.New = s.bufferPool.New ∧
    (putBack M s b).state.getLargeBufferOnce = s.getLargeBufferOnce ∧
    (putBack M s b).state.largeBufferPool.New = s.largeBufferPool.New := by
  unfold putBack
  split
  · simp [Pool.Put]
  · split <;> simp [Pool.Put]

theorem Decrement_binding (s : State) (b : Ptr) :
    (Decrement s b).state.getBufferOnce = s.getBufferOnce ∧
    (Decrement s b).state.bufferPool.New = s.bufferPool.New ∧
    (Decrement s b).state.getLargeBufferOnce = s.getLargeBufferOnce ∧
    (Decrement s b).state.largeBufferPool.New = s.largeBufferPool.New := by
  rw [Decrement_state]
  simp [State.store]

theorem MaybeRelease_binding (M : Nat) (s : State) (b : Ptr) :
    (MaybeRelease M s b).state.getBufferOnce = s.getBufferOnce ∧
    (MaybeRelease M s b).state.bufferPool.New = s.bufferPool.New ∧
    (MaybeRelease M s b).state.getLargeBufferOnce = s.getLargeBufferOnce ∧
    (MaybeRelease M s b).state.largeBufferPool.New = s.largeBufferPool.New := by
  unfold MaybeRelease
  split
  · exact (putBack_binding M s b).2
  · simp

theorem Release_binding (M : Nat) (s : State) (b : Ptr) :
    (Release M s b).state.getBufferOnce = s.getBufferOnce ∧
    (Release M s b).state.bufferPool.New = s.bufferPool.New ∧
    (Release M s b).state.getLargeBufferOnce = s.getLargeBufferOnce ∧
    (Release M s b).state.largeBufferPool.New = s.largeBufferPool.New := by
  obtain ⟨d1, d2, d3, d4⟩ := Decrement_binding s b
  obtain ⟨_, p1, p2, p3, p4⟩ := putBack_binding M (Decrement s b).state b
  unfold Release
  simp only
  split
  · exact ⟨d1, d2, d3, d4⟩
  · split
    · exact ⟨d1, d2, d3, d4⟩
    · exact ⟨p1.trans d1, p2.trans d2, p3.trans d3, p4.trans d4⟩

theorem getPacketBuffer_binding (s : State) (size : ByteCount) (choice : Option Nat) :
    (getPacketBuffer s size choice).1.getBufferOnce = true ∧
    (getPacketBuffer s size choice).1.bufferPool.New =
      (if s.getBufferOnce then s.bufferPool.New else some size) ∧
    (getPacketBuffer s size choice).1.getLargeBufferOnce = s.getLargeBufferOnce ∧
    (getPacketBuffer s size choice).1.largeBufferPool = s.largeBufferPool := by
  obtain ⟨_, _, g3, g4, g5⟩ := getBufferOnceDo_heap s size
  have gN := getBufferOnceDo_New s size
  rcases getPacketBuffer_cases s size choice with
    ⟨i, b, hc, hi⟩ | ⟨ht, hn⟩ | ⟨k, ht, hn, hm⟩ | ⟨k, ht, hn, hm⟩
  · subst hc
    rw [getPacketBuffer_hit s size i b hi]
    simp only [resetBuf, State.store]
    exact ⟨g5, gN, g4, g3⟩
  · rw [getPacketBuffer_nil s size choice ht hn]
    exact ⟨g5, gN, g4, g3⟩
  · rw [getPacketBuffer_makeslice s size choice k ht hn hm]
    exact ⟨g5, gN, g4, g3⟩
  · rw [getPacketBuffer_miss s size choice k ht hn hm]
    simp only [resetBuf, State.alloc, State.store]
    exact ⟨g5, gN, g4, g3⟩

theorem getLargePacketBuffer_binding (s : State) (size : ByteCount) (choice : Option Nat) :
    (getLargePacketBuffer s size choice).1.getLargeBufferOnce = true ∧
    (getLargePacketBuffer s size choice).1.largeBufferPool.New =
      (if s.getLargeBufferOnce then s.largeBufferPool.New else some size) ∧
    (getLargePacketBuffer s size choice).1.getBufferOnce = s.getBufferOnce ∧
    (getLargePacketBuffer s size choice).1.bufferPool = s.bufferPool := by
  obtain ⟨_, _, g3, g4, g5⟩ := getLargeBufferOnceDo_heap s size
  have gN := getLargeBufferOnceDo_New s size
  rcases getLargePacketBuffer_cases s size choice with
    ⟨i, b, hc, hi⟩ | ⟨ht, hn⟩ | ⟨k, ht, hn, hm⟩ | ⟨k, ht, hn, hm⟩
  · subst hc
    rw [getLargePacketBuffer_hit s size i b hi]
    simp only [resetBuf, State.store]
    exact ⟨g5, gN, g4, g3⟩
  · rw [getLargePacketBuffer_nil s size choice ht hn]
    exact ⟨g5, gN, g4, g3⟩
  · rw [getLargePacketBuffer_makeslice s size choice k ht hn hm]
    exact ⟨g5, gN, g4, g3⟩
  · rw [getLargePacketBuffer_miss s size choice k ht hn hm]
    simp only [resetBuf, State.alloc, State.store]
    exact ⟨g5, gN, g4, g3⟩

/-- Once a tier's `sync.Once` has fired, no call changes what the tier's `New` is. -/
theorem exec_binding (M : Nat) (s : State) (c : Call) :
    (s.getBufferOnce = true →
      (exec M s c).state.getBufferOnce = true ∧
      (exec M s c).state.bufferPool.New = s.bufferPool.New) ∧
    (s.getLargeBufferOnce = true →
      (exec M s c).state.getLargeBufferOnce = true ∧
      (exec M s c).state.largeBufferPool.New = s.largeBufferPool.New) := by
  cases c with
  | getPacketBuffer size choice =>
    obtain ⟨g1, g2, g3, g4⟩ := getPacketBuffer_binding s size choice
    simp only [exec, ofAcquire_state]
    refine ⟨fun h => ⟨g1, ?_⟩, fun h => ⟨g3.trans h, by rw [g4]⟩⟩
    rw [g2, h]; rfl
  | getLargePacketBuffer size choice =>
    obtain ⟨g1, g2, g3, g4⟩ := getLargePacketBuffer_binding s size choice
    simp only [exec, ofAcquire_state]
    refine ⟨fun h => ⟨g3.trans h, by rw [g4]⟩, fun h => ⟨g1, ?_⟩⟩
    rw [g2, h]; rfl
  | Split b => exact ⟨fun h => ⟨h, rfl⟩, fun h => ⟨h, rfl⟩⟩
  | Decrement b =>
    obtain ⟨d1, d2, d3, d4⟩ := Decrement_binding s b
    exact ⟨fun h => ⟨d1.trans h, d2⟩, fun h => ⟨d3.trans h, d4⟩⟩
  | MaybeRelease b =>
    obtain ⟨d1, d2, d3, d4⟩ := MaybeRelease_binding M s b
    exact ⟨fun h => ⟨d1.trans h, d2⟩, fun h => ⟨d3.trans h, d4⟩⟩
  | Release b =>
    obtain ⟨d1, d2, d3, d4⟩ := Release_binding M s b
    exact ⟨fun h => ⟨d1.trans h, d2⟩, fun h => ⟨d3.trans h, d4⟩⟩

theorem execAll_nil (M : Nat) (s : State) :
    execAll M s [] = { state := s, panic := none } := rfl

theorem execAll_cons_ok (M : Nat) (s : State) (c : Call) (cs : List Call)
    (h : (exec M s c).panic = none) :
    execAll M s (c :: cs) = execAll M (exec M s c).state cs := by
  simp only [execAll, Outcome.andThen, h]

theorem execAll_cons_panic (M : Nat) (s : State) (c : Call) (cs : List Call) (e : Panic)
    (h : (exec M s c).panic = some e) :
    execAll M s (c :: cs) = { state := (exec M s c).state, panic := some e } := by
  simp only [execAll, Outcome.andThen, h]

theorem execAll_binding (M : Nat) (cs : List Call) :
    ∀ s : State,
    (s.getBufferOnce = true →
      (execAll M s cs).state.getBufferOnce = true ∧
      (execAll M s cs).state.bufferPool.New = s.bufferPool.New) ∧
    (s.getLargeBufferOnce = true →
      (execAll M s cs).state.getLargeBufferOnce = true ∧
      (execAll M s cs).state.largeBufferPool.New = s.largeBufferPool.New) := by
  induction cs with
  | nil => intro s; exact ⟨fun h => ⟨h, rfl⟩, fun h => ⟨h, rfl⟩⟩
  | cons c cs ih =>
    intro s
    obtain ⟨e1, e2⟩ := exec_binding M s c
    cases hp : (exec M s c).panic with
    | some e =>
      rw [execAll_cons_panic M s c cs e hp]
      exact ⟨e1, e2⟩
    | none =>
      rw [execAll_cons_ok M s c cs hp]
      obtain ⟨i1, i2⟩ := ih (exec M s c).state
      exact ⟨fun h => ⟨(i1 (e1 h).1).1, ((i1 (e1 h).1).2).trans (e1 h).2⟩,
             fun h => ⟨(i2 (e2 h).1).1, ((i2 (e2 h).1).2).trans (e2 h).2⟩⟩

/-! ## The count and the capacity along a run -/

theorem MaybeRelease_heap (M : Nat) (s : State) (b : Ptr) :
    (MaybeRelease M s b).state.heap = s.heap := by
  unfold MaybeRelease
  split
  · exact (putBack_binding M s b).1
  · rfl

theorem Release_heap (M : Nat) (s : State) (b : Ptr) :
    (Release M s b).state.heap = (Decrement s b).state.heap := by
  unfold Release
  simp only
  split
  · rfl
  · split
    · rfl
    · exact (putBack_binding M _ b).1

/-- `Release` raises the negative-count failure exactly when its `Decrement` does. -/
theorem Release_negative_iff (M : Nat) (s : State) (b : Ptr) :
    (Release M s b).panic = some Panic.negativeRefCount ↔
      (Decrement s b).panic = some Panic.negativeRefCount := by
  by_cases h1 : wrapInt ((s.heap b).refCount - 1) < 0
  · simp [Release, Decrement, State.store, h1]
  · by_cases h2 : wrapInt ((s.heap b).refCount - 1) = 0
    · by_cases hc : (s.heap b).Data.cap = (s.heap b).packetSize
      · simp [Release, Decrement, State.store, putBack, h1, h2, hc]
      · by_cases hm : (s.heap b).Data.cap = M
        · subst hm
          simp [Release, Decrement, State.store, putBack, h1, h2, hc]
        · simp [Release, Decrement, State.store, putBack, h1, h2, hc, hm]
    · simp [Release, Decrement, State.store, h1, h2]

/-- A count that is a non-negative `int`. -/
theorem Decrement_keeps (s : State) (b p : Ptr)
    (h : 0 ≤ (s.heap p).refCount ∧ (s.heap p).refCount ≤ maxInt)
    (hp : (Decrement s b).panic ≠ some Panic.negativeRefCount) :
    0 ≤ ((Decrement s b).state.heap p).refCount ∧
    ((Decrement s b).state.heap p).refCount ≤ maxInt := by
  by_cases hpb : p = b
  · subst hpb
    have hn : ¬ wrapInt ((s.heap p).refCount - 1) < 0 := by
      intro hneg
      exact hp (Decrement_negative s p hneg)
    rw [(Decrement_count s p).1]
    exact ⟨by omega, (wrapInt_range _).2⟩
  · rw [Decrement_state]
    simpa [State.store, hpb] using h

theorem resetBuf_keeps (s : State) (b p : Ptr)
    (h : 0 ≤ (s.heap p).refCount ∧ (s.heap p).refCount ≤ maxInt) :
    0 ≤ ((resetBuf s b).heap p).refCount ∧ ((resetBuf s b).heap p).refCount ≤ maxInt := by
  by_cases hpb : p = b
  · subst hpb
    simp only [resetBuf, State.store, if_true]
    decide
  · simpa [resetBuf, State.store, hpb] using h

theorem alloc_keeps (s : State) (v : packetBuffer) (p : Ptr) (hv : v.refCount = 0)
    (h : 0 ≤ (s.heap p).refCount ∧ (s.heap p).refCount ≤ maxInt) :
    0 ≤ ((s.alloc v).heap p).refCount ∧ ((s.alloc v).heap p).refCount ≤ maxInt := by
  by_cases hpb : p = s.next
  · subst hpb
    simp only [State.alloc, State.store, if_true, hv]
    decide
  · simpa [State.alloc, State.store, hpb] using h

theorem getPacketBuffer_keeps (s : State) (size : ByteCount) (choice : Option Nat) (p : Ptr)
    (h : 0 ≤ (s.heap p).refCount ∧ (s.heap p).refCount ≤ maxInt) :
    0 ≤ ((getPacketBuffer s size choice).1.heap p).refCount ∧
    ((getPacketBuffer s size choice).1.heap p).refCount ≤ maxInt := by
  have h1 : 0 ≤ ((getBufferOnceDo s size).heap p).refCount ∧
      ((getBufferOnceDo s size).heap p).refCount ≤ maxInt := by
    rw [(getBufferOnceDo_heap s size).1]; exact h
  rcases getPacketBuffer_cases s size choice with
    ⟨i, b, hc, hi⟩ | ⟨ht, hn⟩ | ⟨k, ht, hn, hm⟩ | ⟨k, ht, hn, hm⟩
  · subst hc
    rw [getPacketBuffer_hit s size i b hi]
    exact resetBuf_keeps _ _ p h1
  · rw [getPacketBuffer_nil s size choice ht hn]
    exact h1
  · rw [getPacketBuffer_makeslice s size choice k ht hn hm]
    exact h1
  · rw [getPacketBuffer_miss s size choice k ht hn hm]
    exact resetBuf_keeps _ _ p (alloc_keeps _ _ p rfl h1)

theorem getLargePacketBuffer_keeps (s : State) (size : ByteCount) (choice : Option Nat)
    (p : Ptr) (h : 0 ≤ (s.heap p).refCount ∧ (s.heap p).refCount ≤ maxInt) :
    0 ≤ ((getLargePacketBuffer s size choice).1.heap p).refCount ∧
    ((getLargePacketBuffer s size choice).1.heap p).refCount ≤ maxInt := by
  have h1 : 0 ≤ ((getLargeBufferOnceDo s size).heap p).refCount ∧
      ((getLargeBufferOnceDo s size).heap p).refCount ≤ maxInt := by
    rw [(getLargeBufferOnceDo_heap s size).1]; exact h
  rcases getLargePacketBuffer_cases s size choice with
    ⟨i, b, hc, hi⟩ | ⟨ht, hn⟩ | ⟨k, ht, hn, hm⟩ | ⟨k, ht, hn, hm⟩
  · subst hc
    rw [getLargePacketBuffer_hit s size i b hi]
    exact resetBuf_keeps _ _ p h1
  · rw [getLargePacketBuffer_nil s size choice ht hn]
    exact h1
  · rw [getLargePacketBuffer_makeslice s size choice k ht hn hm]
    exact h1
  · rw [getLargePacketBuffer_miss s size choice k ht hn hm]
    exact resetBuf_keeps _ _ p (alloc_keeps _ _ p rfl h1)

/-- One call keeps a count a non-negative `int`, unless it fails with the negative-count
failure or is a `Split` of that buffer at `maxInt`. -/
theorem exec_keeps (M : Nat) (s : State) (c : Call) (p : Ptr)
    (h : 0 ≤ (s.heap p).refCount ∧ (s.heap p).refCount ≤ maxInt)
    (hp : (exec M s c).panic ≠ some Panic.negativeRefCount)
    (hov : c = Call.Split p → (s.heap p).refCount ≠ maxInt) :
    0 ≤ ((exec M s c).state.heap p).refCount ∧
    ((exec M s c).state.heap p).refCount ≤ maxInt := by
  cases c with
  | getPacketBuffer size choice =>
    simp only [exec, ofAcquire_state]
    exact getPacketBuffer_keeps s size choice p h
  | getLargePacketBuffer size choice =>
    simp only [exec, ofAcquire_state]
    exact getLargePacketBuffer_keeps s size choice p h
  | Split b =>
    by_cases hpb : p = b
    · subst hpb
      have hne := hov rfl
      have hw : wrapInt ((s.heap p).refCount + 1) = (s.heap p).refCount + 1 :=
        wrapInt_of_range _ (by simp only [minInt]; omega) (by omega)
      simp only [exec, Split, State.store, if_true, hw]
      omega
    · simpa [exec, Split, State.store, hpb] using h
  | Decrement b => exact Decrement_keeps s b p h hp
  | MaybeRelease b =>
    simp only [exec, MaybeRelease_heap]
    exact h
  | Release b =>
    simp only [exec, Release_heap]
    exact Decrement_keeps s b p h (fun hd => hp ((Release_negative_iff M s b).mpr hd))

theorem execAll_keeps (M : Nat) (p : Ptr) (cs : List Call) :
    ∀ s : State, (0 ≤ (s.heap p).refCount ∧ (s.heap p).refCount ≤ maxInt) →
      (execAll M s cs).panic ≠ some Panic.negativeRefCount →
      noSplitOverflow M p s cs →
      0 ≤ ((execAll M s cs).state.heap p).refCount ∧
      ((execAll M s cs).state.heap p).refCount ≤ maxInt := by
  induction cs with
  | nil => intro s h _ _; exact h
  | cons c cs ih =>
    intro s h hp hov
    cases hc : (exec M s c).panic with
    | some e =>
      rw [execAll_cons_panic M s c cs e hc] at hp ⊢
      exact exec_keeps M s c p h (by rw [hc]; exact hp) hov.1
    | none =>
      rw [execAll_cons_ok M s c cs hc] at hp ⊢
      exact ih _ (exec_keeps M s c p h (by rw [hc]; simp) hov.1) hp (hov.2 hc)

/-! ## Properties of the package -/

/-- C1: a buffer obtained from `getLargePacketBuffer(16384)` and released directly does
not panic, but `Release` puts it into `bufferPool`, the standard tier's pool, and
`largeBufferPool` stays empty: the two tiers are crossed, whatever value
`MaxLargePacketBufferSize` has. -/
theorem large_release_enters_bufferPool (M : Nat) :
    (getLargePacketBuffer State.init 16384 none).2 = Ret.ok 0 ∧
    (Release M largeExample 0).panic = none ∧
    (Release M largeExample 0).state.bufferPool.items = [0] ∧
    (Release M largeExample 0).state.largeBufferPool.items = [] :=
  ⟨rfl, rfl, rfl, rfl⟩

/-- C4: a buffer obtained from `getLargePacketBuffer(16384)` whose count was brought to 0
by `Decrement` is put by `MaybeRelease` into `bufferPool`, not into the pool of the tier
it came from, whatever value `MaxLargePacketBufferSize` has. -/
theorem large_maybeRelease_enters_bufferPool (M : Nat) :
    ((Decrement largeExample 0).state.heap 0).refCount = 0 ∧
    (MaybeRelease M (Decrement largeExample 0).state 0).panic = none ∧
    (MaybeRelease M (Decrement largeExample 0).state 0).state.bufferPool.items = [0] ∧
    (MaybeRelease M (Decrement largeExample 0).state 0).state.largeBufferPool.items = [] :=
  ⟨rfl, rfl, rfl, rfl⟩

/-- C5: `MaybeRelease` and `Release` reach `putBack` only at count 0.  If `MaybeRelease`
changes a pool or raises the wrong-size failure of `putBack`, `refCount` is 0, and at any
other count it leaves both pools as they were; the same holds for `Release` with the count
it leaves behind. -/
theorem putBack_only_at_zero (M : Nat) (s : State) (b : Ptr) :
    ((((MaybeRelease M s b).state.bufferPool ≠ s.bufferPool ∨
        (MaybeRelease M s b).state.largeBufferPool ≠ s.largeBufferPool ∨
        (MaybeRelease M s b).panic = some Panic.wrongSize) → (s.heap b).refCount = 0) ∧
     ((s.heap b).refCount ≠ 0 →
        (MaybeRelease M s b).state.bufferPool = s.bufferPool ∧
        (MaybeRelease M s b).state.largeBufferPool = s.largeBufferPool)) ∧
    ((((Release M s b).state.bufferPool ≠ s.bufferPool ∨
        (Release M s b).state.largeBufferPool ≠ s.largeBufferPool ∨
        (Release M s b).panic = some Panic.wrongSize) →
          ((Release M s b).state.heap b).refCount = 0) ∧
     (((Release M s b).state.heap b).refCount ≠ 0 →
        (Release M s b).state.bufferPool = s.bufferPool ∧
        (Release M s b).state.largeBufferPool = s.largeBufferPool)) := by
  refine ⟨?_, ?_⟩
  · by_cases h : (s.heap b).refCount = 0
    · simp [h]
    · simp [MaybeRelease, h]
  · by_cases h1 : wrapInt ((s.heap b).refCount - 1) < 0
    · have h2 : wrapInt ((s.heap b).refCount - 1) ≠ 0 := by omega
      simp [Release, Decrement, State.store, h1, h2]
    · by_cases h2 : wrapInt ((s.heap b).refCount - 1) = 0
      · by_cases hc : (s.heap b).Data.cap = (s.heap b).packetSize
        · simp [Release, Decrement, State.store, putBack, h1, h2, hc]
        · by_cases hm : (s.heap b).Data.cap = M
          · subst hm
            simp [Release, Decrement, State.store, putBack, h1, h2, hc]
          · simp [Release, Decrement, State.store, putBack, h1, h2, hc, hm]
      · simp [Release, Decrement, State.store, h1, h2]

/-- C9: from program start, with the standard tier used at size 1200 and the large tier
at size 16384, the large buffer (buffer `1`) released by `Release` is cached in the
standard pool, and the next
`getPacketBuffer(1200)` that takes it from the cache returns a buffer of capacity 16384,
not 1200. -/
theorem getPacketBuffer_returns_large_capacity (M : Nat) :
    (execAll M State.init [Call.getPacketBuffer 1200 none,
      Call.getLargePacketBuffer 16384 none, Call.Release 1]).panic = none ∧
    (execAll M State.init [Call.getPacketBuffer 1200 none,
      Call.getLargePacketBuffer 16384 none, Call.Release 1]).state.bufferPool.items = [1] ∧
    (getPacketBuffer (execAll M State.init [Call.getPacketBuffer 1200 none,
      Call.getLargePacketBuffer 16384 none, Call.Release 1]).state 1200 (some 0)).2
        = Ret.ok 1 ∧
    Cap (getPacketBuffer (execAll M State.init [Call.getPacketBuffer 1200 none,
      Call.getLargePacketBuffer 16384 none, Call.Release 1]).state 1200 (some 0)).1 1
        = 16384 :=
  ⟨rfl, rfl, rfl, rfl⟩

/-- C10: with the standard tier configured at 1200 and the large tier at 16384, `putBack`
of the large tier's buffer, whose capacity 16384 is the large tier's size and not the
standard tier's, puts it into the standard pool and not into the large pool: the first
test of `putBack` compares the capacity with the buffer's own `packetSize`. -/
theorem putBack_large_enters_bufferPool (M : Nat) :
    bothExample.bufferPool.New = some 1200 ∧
    bothExample.largeBufferPool.New = some 16384 ∧
    Cap bothExample 1 = 16384 ∧
    (putBack M bothExample 1).panic = none ∧
    (putBack M bothExample 1).state.bufferPool.items = [1] ∧
    (putBack M bothExample 1).state.largeBufferPool.items = [] :=
  ⟨rfl, rfl, rfl, rfl, rfl, rfl⟩

theorem Decrement_shape (s : State) (b p : Ptr) :
    Cap (Decrement s b).state p = Cap s p ∧
    ((Decrement s b).state.heap p).packetSize = (s.heap p).packetSize := by
  rw [Decrement_state]
  by_cases hpb : p = b
  · subst hpb
    simp [Cap, State.store]
  · simp [Cap, State.store, hpb]

theorem resetBuf_shape (s : State) (b p : Ptr) :
    Cap (resetBuf s b) p = Cap s p ∧
    ((resetBuf s b).heap p).packetSize = (s.heap p).packetSize := by
  by_cases hpb : p = b
  · subst hpb
    simp [Cap, resetBuf, State.store, Slice.truncate]
  · simp [Cap, resetBuf, State.store, hpb]

/-- C13: `Split`, `Decrement`, `MaybeRelease` and `Release`, whether or not they panic,
leave `cap(Data)` and `packetSize` of every buffer as they were, and so does the
re-acquisition of a cached buffer through `getPacketBuffer` or `getLargePacketBuffer`,
which returns that buffer. -/
theorem capacity_never_changes (M : Nat) (s : State) (b : Ptr) :
    (∀ p, Cap (Split s b) p = Cap s p ∧
      ((Split s b).heap p).packetSize = (s.heap p).packetSize) ∧
    (∀ p, Cap (Decrement s b).state p = Cap s p ∧
      ((Decrement s b).state.heap p).packetSize = (s.heap p).packetSize) ∧
    (∀ p, Cap (MaybeRelease M s b).state p = Cap s p ∧
      ((MaybeRelease M s b).state.heap p).packetSize = (s.heap p).packetSize) ∧
    (∀ p, Cap (Release M s b).state p = Cap s p ∧
      ((Release M s b).state.heap p).packetSize = (s.heap p).packetSize) ∧
    (∀ size i, s.bufferPool.items[i]? = some b →
      (getPacketBuffer s size (some i)).2 = Ret.ok b ∧
      ∀ p, Cap (getPacketBuffer s size (some i)).1 p = Cap s p ∧
        ((getPacketBuffer s size (some i)).1.heap p).packetSize = (s.heap p).packetSize) ∧
    (∀ size i, s.largeBufferPool.items[i]? = some b →
      (getLargePacketBuffer s size (some i)).2 = Ret.ok b ∧
      ∀ p, Cap (getLargePacketBuffer s size (some i)).1 p = Cap s p ∧
        ((getLargePacketBuffer s size (some i)).1.heap p).packetSize
          = (s.heap p).packetSize) := by
  refine ⟨?_, Decrement_shape s b, ?_, ?_, ?_, ?_⟩
  · intro p
    by_cases hpb : p = b
    · subst hpb
      simp [Cap, Split, State.store]
    · simp [Cap, Split, State.store, hpb]
  · intro p
    simp [Cap, MaybeRelease_heap]
  · intro p
    simp only [Cap, Release_heap]
    exact Decrement_shape s b p
  · intro size i hi
    rw [getPacketBuffer_hit s size i b hi]
    refine ⟨rfl, fun p => ?_⟩
    obtain ⟨r1, r2⟩ := resetBuf_shape
      { getBufferOnceDo s size with
          bufferPool := { items := s.bufferPool.items.eraseIdx i,
                          New := (getBufferOnceDo s size).bufferPool.New } } b p
    refine ⟨r1.trans ?_, r2.trans ?_⟩
    · simp [Cap, (getBufferOnceDo_heap s size).1]
    · simp [(getBufferOnceDo_heap s size).1]
  · intro size i hi
    rw [getLargePacketBuffer_hit s size i b hi]
    refine ⟨rfl, fun p => ?_⟩
    obtain ⟨r1, r2⟩ := resetBuf_shape
      { getLargeBufferOnceDo s size with
          largeBufferPool := { items := s.largeBufferPool.items.eraseIdx i,
                               New := (getLargeBufferOnceDo s size).largeBufferPool.New } } b p
    refine ⟨r1.trans ?_, r2.trans ?_⟩
    · simp [Cap, (getLargeBufferOnceDo_heap s size).1]
    · simp [(getLargeBufferOnceDo_heap s size).1]

theorem MaybeRelease_zero_standard (M : Nat) (s : State) (b : Ptr)
    (h0 : (s.heap b).refCount = 0) (hc : (s.heap b).Data.cap = (s.heap b).packetSize) :
    MaybeRelease M s b =
      { state := { s with bufferPool := s.bufferPool.Put b }, panic := none } := by
  simp [MaybeRelease, h0, putBack, hc]

theorem MaybeRelease_zero_large (M : Nat) (s : State) (b : Ptr)
    (h0 : (s.heap b).refCount = 0) (hc : (s.heap b).Data.cap ≠ (s.heap b).packetSize)
    (hm : (s.heap b).Data.cap = M) :
    MaybeRelease M s b =
      { state := { s with largeBufferPool := s.largeBufferPool.Put b }, panic := none } := by
  subst hm
  simp [MaybeRelease, h0, putBack, hc]

theorem MaybeRelease_repeats_standard (M : Nat) (b : Ptr) (k : Nat) :
    ∀ s : State, (s.heap b).refCount = 0 →
      (s.heap b).Data.cap = (s.heap b).packetSize →
      (execAll M s (List.replicate k (Call.MaybeRelease b))).panic = none ∧
      (execAll M s (List.replicate k (Call.MaybeRelease b))).state.heap = s.heap ∧
      (execAll M s (List.replicate k (Call.MaybeRelease b))).state.bufferPool.items
        = s.bufferPool.items ++ List.replicate k b ∧
      (execAll M s (List.replicate k (Call.MaybeRelease b))).state.largeBufferPool
        = s.largeBufferPool := by
  induction k with
  | zero => intro s _ _; simp [execAll_nil]
  | succ k ih =>
    intro s h0 hc
    have hm := MaybeRelease_zero_standard M s b h0 hc
    have hp : (exec M s (Call.MaybeRelease b)).panic = none := by
      simp only [exec, hm]
    rw [List.replicate_succ, execAll_cons_ok M s _ _ hp]
    simp only [exec, hm]
    obtain ⟨i1, i2, i3, i4⟩ := ih { s with bufferPool := s.bufferPool.Put b } h0 hc
    refine ⟨i1, i2, ?_, i4⟩
    rw [i3]
    simp [Pool.Put, List.replicate_succ]

theorem MaybeRelease_repeats_large (M : Nat) (b : Ptr) (k : Nat) :
    ∀ s : State, (s.heap b).refCount = 0 →
      (s.heap b).Data.cap ≠ (s.heap b).packetSize → (s.heap b).Data.cap = M →
      (execAll M s (List.replicate k (Call.MaybeRelease b))).panic = none ∧
      (execAll M s (List.replicate k (Call.MaybeRelease b))).state.heap = s.heap ∧
      (execAll M s (List.replicate k (Call.MaybeRelease b))).state.largeBufferPool.items
        = s.largeBufferPool.items ++ List.replicate k b ∧
      (execAll M s (List.replicate k (Call.MaybeRelease b))).state.bufferPool
        = s.bufferPool := by
  induction k with
  | zero => intro s _ _ _; simp [execAll_nil]
  | succ k ih =>
    intro s h0 hc hM
    have hm := MaybeRelease_zero_large M s b h0 hc hM
    have hp : (exec M s (Call.MaybeRelease b)).panic = none := by
      simp only [exec, hm]
    rw [List.replicate_succ, execAll_cons_ok M s _ _ hp]
    simp only [exec, hm]
    obtain ⟨i1, i2, i3, i4⟩ :=
      ih { s with largeBufferPool := s.largeBufferPool.Put b } h0 hc hM
    refine ⟨i1, i2, ?_, i4⟩
    rw [i3]
    simp [Pool.Put, List.replicate_succ]

/-- C16: on a buffer with `refCount` 0 whose capacity passes one of the tests of
`putBack`, `k` consecutive calls of `MaybeRelease` do not panic, leave `refCount` at 0 and
append the buffer `k` times to the pool `putBack` selects (the standard pool when
`cap(Data) = packetSize`, the large pool otherwise), the other pool being unchanged: the
pools together hold `k` more entries of the same buffer. -/
theorem MaybeRelease_repeats (M : Nat) (s : State) (b : Ptr) (k : Nat)
    (h0 : (s.heap b).refCount = 0)
    (hcap : (s.heap b).Data.cap = (s.heap b).packetSize ∨ (s.heap b).Data.cap = M) :
    (execAll M s (List.replicate k (Call.MaybeRelease b))).panic = none ∧
    ((execAll M s (List.replicate k (Call.MaybeRelease b))).state.heap b).refCount = 0 ∧
    ((s.heap b).Data.cap = (s.heap b).packetSize →
      (execAll M s (List.replicate k (Call.MaybeRelease b))).state.bufferPool.items
        = s.bufferPool.items ++ List.replicate k b ∧
      (execAll M s (List.replicate k (Call.MaybeRelease b))).state.largeBufferPool
        = s.largeBufferPool) ∧
    ((s.heap b).Data.cap ≠ (s.heap b).packetSize →
      (execAll M s (List.replicate k (Call.MaybeRelease b))).state.largeBufferPool.items
        = s.largeBufferPool.items ++ List.replicate k b ∧
      (execAll M s (List.replicate k (Call.MaybeRelease b))).state.bufferPool
        = s.bufferPool) ∧
    List.count b
        ((execAll M s (List.replicate k (Call.MaybeRelease b))).state.bufferPool.items ++
         (execAll M s (List.replicate k (Call.MaybeRelease b))).state.largeBufferPool.items)
      = List.count b (s.bufferPool.items ++ s.largeBufferPool.items) + k := by
  by_cases hc : (s.heap b).Data.cap = (s.heap b).packetSize
  · obtain ⟨i1, i2, i3, i4⟩ := MaybeRelease_repeats_standard M b k s h0 hc
    refine ⟨i1, by rw [i2]; exact h0, fun _ => ⟨i3, i4⟩, fun hn => absurd hc hn, ?_⟩
    rw [i3, i4]
    simp [List.count_append, List.count_replicate_self]
    omega
  · have hM : (s.heap b).Data.cap = M := by tauto
    obtain ⟨i1, i2, i3, i4⟩ := MaybeRelease_repeats_large M b k s h0 hc hM
    refine ⟨i1, by rw [i2]; exact h0, fun h => absurd h hc, fun _ => ⟨i3, i4⟩, ?_⟩
    rw [i3, i4]
    simp [List.count_append, List.count_replicate_self]
    omega

/-- Witness of C16: the standard buffer of `recycledExample` has count 0 and is in the
standard pool once; two more calls of `MaybeRelease` leave it there three times. -/
theorem MaybeRelease_repeats_witness :
    (recycledExample.heap 0).refCount = 0 ∧
    ((recycledExample.heap 0).Data.cap = (recycledExample.heap 0).packetSize ∨
      (recycledExample.heap 0).Data.cap = 20480) ∧
    (execAll 20480 recycledExample
      (List.replicate 2 (Call.MaybeRelease 0))).state.bufferPool.items = [0, 0, 0] ∧
    (execAll 20480 recycledExample (List.replicate 2 (Call.MaybeRelease 0))).panic = none :=
  ⟨by decide, Or.inl (by decide), by decide,
   (MaybeRelease_repeats 20480 recycledExample 0 2 (by decide) (Or.inl (by decide))).1⟩

/-- C17: on a buffer with `refCount` 1, `Release` produces the same outcome, state and
panic alike, as `Decrement` followed by `MaybeRelease`; the only panic either can raise is
the wrong-size failure of `putBack`, raised exactly when the capacity passes neither test;
and on success `refCount` is 0 while `Data` and `packetSize` are as they were. -/
theorem Release_eq_Decrement_MaybeRelease (M : Nat) (s : State) (b : Ptr)
    (h : (s.heap b).refCount = 1) :
    Release M s b = (Decrement s b).andThen (fun t => MaybeRelease M t b) ∧
    ((Release M s b).panic = none ∨ (Release M s b).panic = some Panic.wrongSize) ∧
    ((Release M s b).panic = none ↔
      ((s.heap b).Data.cap = (s.heap b).packetSize ∨ (s.heap b).Data.cap = M)) ∧
    ((Release M s b).panic = none →
      ((Release M s b).state.heap b).refCount = 0 ∧
      ((Release M s b).state.heap b).Data = (s.heap b).Data ∧
      ((Release M s b).state.heap b).packetSize = (s.heap b).packetSize) := by
  by_cases hc : (s.heap b).Data.cap = (s.heap b).packetSize
  · simp [Release, Decrement, MaybeRelease, Outcome.andThen, State.store, putBack, h, hc,
      wrapInt_zero]
  · by_cases hm : (s.heap b).Data.cap = M
    · subst hm
      simp [Release, Decrement, MaybeRelease, Outcome.andThen, State.store, putBack, h, hc,
        wrapInt_zero]
    · simp [Release, Decrement, MaybeRelease, Outcome.andThen, State.store, putBack, h, hc,
        hm, wrapInt_zero]

/-- Witness of C17: the new buffer of `standardExample` has one reference, and `Release`
and `Decrement` followed by `MaybeRelease` agree on it. -/
theorem Release_eq_Decrement_MaybeRelease_witness :
    (standardExample.heap 0).refCount = 1 ∧
    Release 20480 standardExample 0
      = (Decrement standardExample 0).andThen (fun t => MaybeRelease 20480 t 0) :=
  ⟨by decide, (Release_eq_Decrement_MaybeRelease 20480 standardExample 0 (by decide)).1⟩

theorem Release_never_wrongSize (M : Nat) (s : State) (b : Ptr)
    (hc : (s.heap b).Data.cap = (s.heap b).packetSize) :
    (Release M s b).panic ≠ some Panic.wrongSize := by
  by_cases h1 : wrapInt ((s.heap b).refCount - 1) < 0
  · simp [Release, Decrement, State.store, h1]
  · by_cases h2 : wrapInt ((s.heap b).refCount - 1) = 0
    · simp [Release, Decrement, State.store, putBack, h1, h2, hc]
    · simp [Release, Decrement, State.store, h1, h2]

theorem MaybeRelease_never_panics (M : Nat) (s : State) (b : Ptr)
    (hc : (s.heap b).Data.cap = (s.heap b).packetSize) :
    (MaybeRelease M s b).panic = none := by
  by_cases h0 : (s.heap b).refCount = 0
  · simp [MaybeRelease, h0, putBack, hc]
  · simp [MaybeRelease, h0]

theorem Decrement_never_wrongSize (s : State) (b : Ptr) :
    (Decrement s b).panic ≠ some Panic.wrongSize := by
  unfold Decrement
  dsimp only
  split <;> simp

theorem ofAcquire_ok (r : State × Ret) (b : Ptr) (h : r.2 = Ret.ok b) :
    (Outcome.ofAcquire r).panic = none := by
  simp [Outcome.ofAcquire, h]

theorem ofAcquire_panicked (r : State × Ret) (e : Panic) (h : r.2 = Ret.panicked e) :
    (Outcome.ofAcquire r).panic = some e := by
  simp [Outcome.ofAcquire, h]

theorem getPacketBuffer_never_wrongSize (s : State) (size : ByteCount) (choice : Option Nat) :
    (Outcome.ofAcquire (getPacketBuffer s size choice)).panic ≠ some Panic.wrongSize := by
  rcases getPacketBuffer_cases s size choice with
    ⟨i, b, hc, hi⟩ | ⟨ht, hn⟩ | ⟨k, ht, hn, hm⟩ | ⟨k, ht, hn, hm⟩
  · subst hc
    rw [getPacketBuffer_hit s size i b hi]
    simp [Outcome.ofAcquire]
  · rw [getPacketBuffer_nil s size choice ht hn]
    simp [Outcome.ofAcquire]
  · rw [getPacketBuffer_makeslice s size choice k ht hn hm]
    simp [Outcome.ofAcquire]
  · rw [getPacketBuffer_miss s size choice k ht hn hm]
    simp [Outcome.ofAcquire]

theorem getLargePacketBuffer_never_wrongSize (s : State) (size : ByteCount)
    (choice : Option Nat) :
    (Outcome.ofAcquire (getLargePacketBuffer s size choice)).panic
      ≠ some Panic.wrongSize := by
  rcases getLargePacketBuffer_cases s size choice with
    ⟨i, b, hc, hi⟩ | ⟨ht, hn⟩ | ⟨k, ht, hn, hm⟩ | ⟨k, ht, hn, hm⟩
  · subst hc
    rw [getLargePacketBuffer_hit s size i b hi]
    simp [Outcome.ofAcquire]
  · rw [getLargePacketBuffer_nil s size choice ht hn]
    simp [Outcome.ofAcquire]
  · rw [getLargePacketBuffer_makeslice s size choice k ht hn hm]
    simp [Outcome.ofAcquire]
  · rw [getLargePacketBuffer_miss s size choice k ht hn hm]
    simp [Outcome.ofAcquire]

/-- C18: in every state reachable from program start, every allocated buffer, which one
of the two bound constructors built, has `cap(Data) = packetSize`, so `putBack` on it
takes its first branch without a panic, and no call on allocated buffers, acquisitions
included, raises the wrong-size failure. -/
theorem wrongSize_unreachable (M : Nat) (s : State) (b : Ptr)
    (hs : Reachable M s) (hb : b < s.next) :
    (s.heap b).Data.cap = (s.heap b).packetSize ∧
    putBack M s b = { state := { s with bufferPool := s.bufferPool.Put b }, panic := none } ∧
    (MaybeRelease M s b).panic = none ∧
    (Release M s b).panic ≠ some Panic.wrongSize ∧
    (∀ c : Call, c.allocated s → (exec M s c).panic ≠ some Panic.wrongSize) := by
  have hinv : Inv s := hs.inv
  have hc := hinv.cap_eq b hb
  refine ⟨hc, putBack_standard M s b hc, MaybeRelease_never_panics M s b hc,
    Release_never_wrongSize M s b hc, ?_⟩
  intro c hca
  cases c with
  | getPacketBuffer size choice => exact getPacketBuffer_never_wrongSize s size choice
  | getLargePacketBuffer size choice =>
    exact getLargePacketBuffer_never_wrongSize s size choice
  | Split a => simp [exec]
  | Decrement a => exact Decrement_never_wrongSize s a
  | MaybeRelease a =>
    simp [exec, MaybeRelease_never_panics M s a (hinv.cap_eq a hca)]
  | Release a => exact Release_never_wrongSize M s a (hinv.cap_eq a hca)

/-- Witness of C18: the state after `getPacketBuffer(1200)` from program start is
reachable, buffer `0` is allocated in it, and `MaybeRelease` on it does not panic. -/
theorem wrongSize_unreachable_witness :
    Reachable 20480 (exec 20480 State.init (Call.getPacketBuffer 1200 none)).state ∧
    0 < (exec 20480 State.init (Call.getPacketBuffer 1200 none)).state.next ∧
    (MaybeRelease 20480 (exec 20480 State.init (Call.getPacketBuffer 1200 none)).state
      0).panic = none :=
  ⟨Reachable.step State.init (Call.getPacketBuffer 1200 none) Reachable.init trivial,
   by decide,
   (wrongSize_unreachable 20480 (exec 20480 State.init (Call.getPacketBuffer 1200 none)).state
     0 (Reachable.step State.init (Call.getPacketBuffer 1200 none) Reachable.init trivial)
     (by decide)).2.2.1⟩

/-! ## The count at the ends of the `int` range -/

theorem standardExample_buffer :
    (standardExample.heap 0).refCount = 1 ∧
    (standardExample.heap 0).Data.cap = (standardExample.heap 0).packetSize := by
  decide

theorem saturatedExample_count : (saturatedExample.heap 0).refCount = maxInt := by
  unfold saturatedExample
  rw [splitN_count standardExample 0 9223372036854775806 (by decide) (by decide),
    standardExample_buffer.1]
  decide

theorem Split_count (s : State) (b : Ptr) :
    ((Split s b).heap b).refCount = wrapInt ((s.heap b).refCount + 1) ∧
    ((Split s b).heap b).Data = (s.heap b).Data ∧
    ((Split s b).heap b).packetSize = (s.heap b).packetSize := by
  simp [Split, State.store]

theorem wrappedExample_count : (wrappedExample.heap 0).refCount = minInt := by
  unfold wrappedExample
  rw [(Split_count saturatedExample 0).1, saturatedExample_count]
  decide

theorem wrappedExample_cap :
    (wrappedExample.heap 0).Data.cap = (wrappedExample.heap 0).packetSize := by
  obtain ⟨f1, f2, _, _⟩ := splitN_frame standardExample 0 9223372036854775806
  unfold wrappedExample
  rw [(Split_count saturatedExample 0).2.1, (Split_count saturatedExample 0).2.2]
  unfold saturatedExample
  rw [f1, f2]
  exact standardExample_buffer.2

/-- The three ways `Release` can go, by the count its `Decrement` stores. -/
theorem Release_of_negative (M : Nat) (s : State) (b : Ptr)
    (h : wrapInt ((s.heap b).refCount - 1) < 0) :
    (Release M s b).panic = some Panic.negativeRefCount := by
  simp [Release, Decrement, State.store, h]

theorem Release_of_positive (M : Nat) (s : State) (b : Ptr)
    (h : 0 < wrapInt ((s.heap b).refCount - 1)) :
    (Release M s b).panic = some Panic.refCountNotZero := by
  have h1 : ¬ wrapInt ((s.heap b).refCount - 1) < 0 := by omega
  have h2 : wrapInt ((s.heap b).refCount - 1) ≠ 0 := by omega
  simp [Release, Decrement, State.store, h1, h2]

theorem wrapInt_pred (x : Int) (h1 : minInt < x) (h2 : x ≤ maxInt) :
    wrapInt (x - 1) = x - 1 :=
  wrapInt_of_range _ (by simp only [minInt] at *; omega) (by omega)

theorem wrapInt_succ (x : Int) (h1 : minInt ≤ x) (h2 : x < maxInt) :
    wrapInt (x + 1) = x + 1 :=
  wrapInt_of_range _ (by omega) (by omega)

/-- Counterexample to C2 as stated: after `1<<63 - 1` calls of `Split` the count of a
standard buffer is `minInt`, which is `≤ 0`; `Release` then wraps it to `maxInt` and
panics with the not-zero failure, not the negative-count one. -/
theorem Release_at_minInt_not_negative :
    (wrappedExample.heap 0).refCount = minInt ∧
    (wrappedExample.heap 0).refCount ≤ 0 ∧
    (wrappedExample.heap 0).Data.cap = (wrappedExample.heap 0).packetSize ∧
    (Release 20480 wrappedExample 0).panic = some Panic.refCountNotZero ∧
    (Release 20480 wrappedExample 0).panic ≠ some Panic.negativeRefCount := by
  have hp : (Release 20480 wrappedExample 0).panic = some Panic.refCountNotZero :=
    Release_of_positive 20480 wrappedExample 0 (by rw [wrappedExample_count]; decide)
  refine ⟨wrappedExample_count, by rw [wrappedExample_count]; decide, wrappedExample_cap,
    hp, by rw [hp]; decide⟩

/-- C2, amended: on a buffer whose capacity passes one of the two tests of `putBack`,
`Release` succeeds exactly when `refCount` is 1 before the call; it panics with the
negative-count failure when `minInt < refCount ≤ 0`, and with the not-zero failure when
`refCount ≥ 2` or `refCount = minInt` (where the decrement wraps to `maxInt`); on success
`refCount` is 0 and exactly one pool has received the buffer, once. -/
theorem Release_spec (M : Nat) (s : State) (b : Ptr)
    (hcap : (s.heap b).Data.cap = (s.heap b).packetSize ∨ (s.heap b).Data.cap = M)
    (hr : minInt ≤ (s.heap b).refCount ∧ (s.heap b).refCount ≤ maxInt) :
    ((Release M s b).panic = none ↔ (s.heap b).refCount = 1) ∧
    (minInt < (s.heap b).refCount → (s.heap b).refCount ≤ 0 →
      (Release M s b).panic = some Panic.negativeRefCount) ∧
    (2 ≤ (s.heap b).refCount → (Release M s b).panic = some Panic.refCountNotZero) ∧
    ((s.heap b).refCount = minInt → (Release M s b).panic = some Panic.refCountNotZero) ∧
    ((Release M s b).panic = none →
      ((Release M s b).state.heap b).refCount = 0 ∧
      (((Release M s b).state.bufferPool.items = s.bufferPool.items ++ [b] ∧
          (Release M s b).state.largeBufferPool = s.largeBufferPool) ∨
       ((Release M s b).state.largeBufferPool.items = s.largeBufferPool.items ++ [b] ∧
          (Release M s b).state.bufferPool = s.bufferPool))) := by
  obtain ⟨hlo, hhi⟩ := hr
  by_cases hmin : (s.heap b).refCount = minInt
  · have hp := Release_of_positive M s b (by rw [hmin]; decide)
    have hne : (s.heap b).refCount ≠ 1 := by rw [hmin]; decide
    have h2 : ¬ 2 ≤ (s.heap b).refCount := by rw [hmin]; decide
    have h3 : ¬ minInt < (s.heap b).refCount := by rw [hmin]; decide
    simp [hp, hne, h2, h3]
  · have hgt : minInt < (s.heap b).refCount := lt_of_le_of_ne hlo (Ne.symm hmin)
    have hw := wrapInt_pred _ hgt hhi
    rcases lt_trichotomy (s.heap b).refCount 1 with h | h | h
    · have hp := Release_of_negative M s b (by rw [hw]; omega)
      have h2 : ¬ 2 ≤ (s.heap b).refCount := by omega
      have h4 : (s.heap b).refCount ≠ 1 := by omega
      simp [hp, h2, h4, hmin]
    · have hmin1 : ¬ (1 : Int) = minInt := by decide
      have h3 : ¬ (2 : Int) ≤ 1 := by decide
      have h5 : ¬ (1 : Int) ≤ 0 := by decide
      by_cases hc : (s.heap b).Data.cap = (s.heap b).packetSize
      · simp [Release, Decrement, State.store, putBack, Pool.Put, h, hc, wrapInt_zero,
          hmin1]
      · have hm : (s.heap b).Data.cap = M := by tauto
        subst hm
        simp [Release, Decrement, State.store, putBack, Pool.Put, h, hc, wrapInt_zero,
          hmin1]
    · have hp := Release_of_positive M s b (by rw [hw]; omega)
      have h1 : ¬ (s.heap b).refCount ≤ 0 := by omega
      have h4 : (s.heap b).refCount ≠ 1 := by omega
      simp [hp, h1, h4]

/-- Witness of C2: the new standard buffer of `standardExample` has capacity equal to its
`packetSize` and one reference, and `Release` succeeds on it. -/
theorem Release_spec_witness :
    ((standardExample.heap 0).Data.cap = (standardExample.heap 0).packetSize ∨
      (standardExample.heap 0).Data.cap = 20480) ∧
    (minInt ≤ (standardExample.heap 0).refCount ∧
      (standardExample.heap 0).refCount ≤ maxInt) ∧
    (Release 20480 standardExample 0).panic = none :=
  ⟨Or.inl rfl, by decide,
   (Release_spec 20480 standardExample 0 (Or.inl rfl) (by decide)).1.2 rfl⟩

/-- Counterexample to C3 as stated: after `1<<63 - 1` calls of `Split` the count of a
standard buffer is `minInt`, which is `≤ 0`, yet `Decrement` does not panic: the count
wraps to `maxInt`. -/
theorem Decrement_at_minInt_no_panic :
    (wrappedExample.heap 0).refCount = minInt ∧
    (wrappedExample.heap 0).refCount ≤ 0 ∧
    (Decrement wrappedExample 0).panic = none ∧
    ((Decrement wrappedExample 0).state.heap 0).refCount = maxInt := by
  refine ⟨wrappedExample_count, by rw [wrappedExample_count]; decide,
    Decrement_ok wrappedExample 0 (by rw [wrappedExample_count]; decide), ?_⟩
  rw [(Decrement_count wrappedExample 0).1, wrappedExample_count]
  decide

/-- C3, amended: `Decrement` panics, with the negative-count failure, exactly when
`minInt < refCount ≤ 0` before the call; when `refCount > 0` it lowers the count by one,
and at `refCount = minInt` the count wraps to `maxInt` without a panic; in every case both
pools are left as they were. -/
theorem Decrement_spec (s : State) (b : Ptr)
    (hr : minInt ≤ (s.heap b).refCount ∧ (s.heap b).refCount ≤ maxInt) :
    (((Decrement s b).panic ≠ none ↔
        (minInt < (s.heap b).refCount ∧ (s.heap b).refCount ≤ 0)) ∧
     (minInt < (s.heap b).refCount → (s.heap b).refCount ≤ 0 →
        (Decrement s b).panic = some Panic.negativeRefCount)) ∧
    (0 < (s.heap b).refCount →
      (Decrement s b).panic = none ∧
      ((Decrement s b).state.heap b).refCount = (s.heap b).refCount - 1) ∧
    ((s.heap b).refCount = minInt →
      (Decrement s b).panic = none ∧
      ((Decrement s b).state.heap b).refCount = maxInt) ∧
    ((Decrement s b).state.bufferPool = s.bufferPool ∧
     (Decrement s b).state.largeBufferPool = s.largeBufferPool) := by
  obtain ⟨hlo, hhi⟩ := hr
  obtain ⟨d2, _, _, d5, d6⟩ := Decrement_count s b
  refine ⟨?_, ?_, ?_, d5, d6⟩
  · by_cases hmin : (s.heap b).refCount = minInt
    · have hp := Decrement_ok s b (by rw [hmin]; decide)
      have h3 : ¬ minInt < (s.heap b).refCount := by rw [hmin]; decide
      simp [hp, h3]
    · have hgt : minInt < (s.heap b).refCount := lt_of_le_of_ne hlo (Ne.symm hmin)
      have hw := wrapInt_pred _ hgt hhi
      by_cases h0 : (s.heap b).refCount ≤ 0
      · have hp := Decrement_negative s b (by rw [hw]; omega)
        simp [hp, hgt, h0]
      · have hp := Decrement_ok s b (by rw [hw]; omega)
        simp [hp, h0]
  · intro hpos
    have hw := wrapInt_pred _ (by simp only [minInt]; omega) hhi
    exact ⟨Decrement_ok s b (by rw [hw]; omega), d2.trans hw⟩
  · intro hmin
    refine ⟨Decrement_ok s b (by rw [hmin]; decide), ?_⟩
    rw [d2, hmin]
    decide

/-- Witness of C3: the new standard buffer of `standardExample` has one reference, and
`Decrement` on it does not panic. -/
theorem Decrement_spec_witness :
    (minInt ≤ (standardExample.heap 0).refCount ∧
      (standardExample.heap 0).refCount ≤ maxInt) ∧
    (Decrement standardExample 0).panic = none :=
  ⟨by decide, ((Decrement_spec standardExample 0 (by decide)).2.1 (by decide)).1⟩

/-- Counterexample to C14 as stated: after `1<<63 - 2` calls of `Split` the count of a
standard buffer is `maxInt`; one more `Split` does not raise it by one but wraps it to
`minInt`. -/
theorem Split_at_maxInt_wraps :
    (saturatedExample.heap 0).refCount = maxInt ∧
    ((Split saturatedExample 0).heap 0).refCount = minInt ∧
    ((Split saturatedExample 0).heap 0).refCount ≠ (saturatedExample.heap 0).refCount + 1 := by
  have h : ((Split saturatedExample 0).heap 0).refCount = minInt := by
    rw [(Split_count saturatedExample 0).1, saturatedExample_count]
    decide
  refine ⟨saturatedExample_count, h, ?_⟩
  rw [h, saturatedExample_count]
  decide

/-- C14, amended: `Split` never fails; it raises `refCount` of the buffer by exactly one
for every prior count below `maxInt`, and at `maxInt` wraps it to `minInt`; it leaves the
buffer's `Data` (contents, length, capacity), its `packetSize`, every other buffer and
both pools as they were. -/
theorem Split_spec (M : Nat) (s : State) (b : Ptr)
    (hr : minInt ≤ (s.heap b).refCount ∧ (s.heap b).refCount ≤ maxInt) :
    (exec M s (Call.Split b)).panic = none ∧
    (exec M s (Call.Split b)).state.heap = (Split s b).heap ∧
    ((s.heap b).refCount < maxInt →
      ((Split s b).heap b).refCount = (s.heap b).refCount + 1) ∧
    ((s.heap b).refCount = maxInt → ((Split s b).heap b).refCount = minInt) ∧
    ((Split s b).heap b).Data = (s.heap b).Data ∧
    ((Split s b).heap b).packetSize = (s.heap b).packetSize ∧
    (∀ p, p ≠ b → (Split s b).heap p = s.heap p) ∧
    (Split s b).bufferPool = s.bufferPool ∧
    (Split s b).largeBufferPool = s.largeBufferPool := by
  have hc : ((Split s b).heap b).refCount = wrapInt ((s.heap b).refCount + 1) := by
    simp [Split, State.store]
  refine ⟨rfl, rfl, ?_, ?_, ?_, ?_, ?_, rfl, rfl⟩
  · intro h
    rw [hc]
    exact wrapInt_succ _ hr.1 h
  · intro h
    rw [hc, h]
    decide
  · simp [Split, State.store]
  · simp [Split, State.store]
  · intro p hp
    simp [Split, State.store, hp]

/-- Witness of C14: on the new standard buffer of `standardExample`, `Split` raises the
count from 1 to 2. -/
theorem Split_spec_witness :
    (minInt ≤ (standardExample.heap 0).refCount ∧
      (standardExample.heap 0).refCount ≤ maxInt) ∧
    ((Split standardExample 0).heap 0).refCount = 2 ∧
    ((Split standardExample 0).heap 0).refCount = (standardExample.heap 0).refCount + 1 :=
  ⟨by decide, by decide,
   (Split_spec 20480 standardExample 0 (by decide)).2.2.1 (by decide)⟩

/-! ## Acquisitions and runs -/

/-- Counterexample to C6 as stated: at program start `getPacketBuffer(1<<62)` and
`getLargePacketBuffer(1<<62)` bind a constructor whose `make` panics, so the call returns
no buffer. -/
theorem acquire_panics_in_make :
    (getPacketBuffer State.init 4611686018427387904 none).2
      = Ret.panicked Panic.makeslice ∧
    (getLargePacketBuffer State.init 4611686018427387904 none).2
      = Ret.panicked Panic.makeslice := by
  decide

/-- C6, amended: in a state where a tier that has been used has its constructor bound,
every call of `getPacketBuffer` and of `getLargePacketBuffer` that takes a cached buffer,
or misses the cache with a constructor bound to a size `make` accepts (at most
`maxAlloc`), returns a buffer of length 0 and `refCount` 1, whatever its heap cell held
before; its capacity and `packetSize` are those the cached buffer had, or those of the
bound constructor when it is new.  A cache miss with a constructor bound to a larger size
panics in `make` and returns no buffer. -/
theorem acquire_resets (s : State) (size : ByteCount) (choice : Option Nat)
    (hstd : s.getBufferOnce = true → s.bufferPool.New ≠ none)
    (hlarge : s.getLargeBufferOnce = true → s.largeBufferPool.New ≠ none) :
    ((s.bufferPool.take choice ≠ none ∨ standardSize s size ≤ maxAlloc) →
      ∃ b, (getPacketBuffer s size choice).2 = Ret.ok b ∧
        Acquired s s.bufferPool s.getBufferOnce size choice
          (getPacketBuffer s size choice).1 b) ∧
    (s.bufferPool.take choice = none → maxAlloc < standardSize s size →
      (getPacketBuffer s size choice).2 = Ret.panicked Panic.makeslice) ∧
    ((s.largeBufferPool.take choice ≠ none ∨ largeSize s size ≤ maxAlloc) →
      ∃ b, (getLargePacketBuffer s size choice).2 = Ret.ok b ∧
        Acquired s s.largeBufferPool s.getLargeBufferOnce size choice
          (getLargePacketBuffer s size choice).1 b) ∧
    (s.largeBufferPool.take choice = none → maxAlloc < largeSize s size →
      (getLargePacketBuffer s size choice).2 = Ret.panicked Panic.makeslice) :=
  ⟨getPacketBuffer_acquired s size choice hstd,
   getPacketBuffer_panics s size choice hstd,
   getLargePacketBuffer_acquired s size choice hlarge,
   getLargePacketBuffer_panics s size choice hlarge⟩

/-- Witness of C6: after a standard buffer was acquired and released, the standard tier
is bound and its pool holds that buffer; re-acquiring it gives length 0 and count 1. -/
theorem acquire_resets_witness :
    (recycledExample.getBufferOnce = true → recycledExample.bufferPool.New ≠ none) ∧
    (recycledExample.getLargeBufferOnce = true → recycledExample.largeBufferPool.New ≠ none) ∧
    (recycledExample.bufferPool.take (some 0) ≠ none ∨
      standardSize recycledExample 1200 ≤ maxAlloc) ∧
    (getPacketBuffer recycledExample 1200 (some 0)).2 = Ret.ok 0 ∧
    Len (getPacketBuffer recycledExample 1200 (some 0)).1 0 = 0 ∧
    ((getPacketBuffer recycledExample 1200 (some 0)).1.heap 0).refCount = 1 ∧
    ∃ b, (getPacketBuffer recycledExample 1200 (some 0)).2 = Ret.ok b ∧
      Acquired recycledExample recycledExample.bufferPool recycledExample.getBufferOnce 1200
        (some 0) (getPacketBuffer recycledExample 1200 (some 0)).1 b :=
  ⟨by decide, by decide, by decide, by decide, by decide, by decide,
   (acquire_resets recycledExample 1200 (some 0) (by decide) (by decide)).1 (by decide)⟩

theorem dropAll_first_panics (M : Nat) (s : State) (b : Ptr) (n : Nat) (e : Panic)
    (h : (Decrement s b).panic = some e) :
    (dropAll M s b (List.replicate (n + 1) Drop.Decrement ++ [Drop.Release])).panic
      = some e := by
  rw [List.replicate_succ, List.cons_append, dropAll_Decrement_panic M s b _ e h]

theorem rounds_first_panics (M : Nat) (s : State) (b : Ptr) (e : Panic)
    (h : (Decrement s b).panic = some e) : (rounds M s b 1).panic = some e := by
  simp only [rounds, round, Outcome.andThen, h]

/-- After `1<<63` calls of `Split` on the new standard buffer the count is
`minInt + 1`, and `Decrement` panics with the negative-count failure. -/
theorem overflowed_Decrement_panics :
    (Decrement (splitN standardExample 0 9223372036854775808) 0).panic
      = some Panic.negativeRefCount := by
  apply Decrement_negative
  rw [splitN_count standardExample 0 9223372036854775808 (by decide) (by decide),
    standardExample_buffer.1]
  decide

/-- Counterexample to C7 as stated.  At `n = 0` a new standard buffer followed by one
call, `Decrement`, ends with `refCount` 0 and without a panic, yet the buffer is in
neither pool.  At program start `getPacketBuffer(1<<62)` panics in `make`, so there is no
buffer to return.  At `n = 1<<63` the count has wrapped around and the first of the `n`
calls of `Decrement` panics. -/
theorem decrement_alone_returns_nothing :
    ((standardExample.heap 0).refCount = 1 ∧
     (dropAll 20480 (splitN standardExample 0 0) 0 [Drop.Decrement]).panic = none ∧
     ((dropAll 20480 (splitN standardExample 0 0) 0 [Drop.Decrement]).state.heap 0).refCount
       = 0 ∧
     (dropAll 20480 (splitN standardExample 0 0) 0 [Drop.Decrement]).state.bufferPool.items
       = [] ∧
     (dropAll 20480 (splitN standardExample 0 0) 0
       [Drop.Decrement]).state.largeBufferPool.items = []) ∧
    (getPacketBuffer State.init 4611686018427387904 none).2
      = Ret.panicked Panic.makeslice ∧
    (dropAll 20480 (splitN standardExample 0 9223372036854775808) 0
      (List.replicate 9223372036854775808 Drop.Decrement ++ [Drop.Release])).panic
        = some Panic.negativeRefCount :=
  ⟨by decide, by decide,
   dropAll_first_panics 20480 _ 0 9223372036854775807 _ overflowed_Decrement_panics⟩

/-- On a buffer with one reference, `n ≤ maxInt` calls of `Split`, `n` calls of `Decrement`
and a `Release` return it to the standard pool. -/
theorem dropAll_after_splits (M : Nat) (s : State) (b : Ptr) (n : Nat)
    (h1 : (s.heap b).refCount = 1) (hn : (n : Int) ≤ maxInt)
    (hcap : (s.heap b).Data.cap = (s.heap b).packetSize) :
    (dropAll M (splitN s b n) b
      (List.replicate n Drop.Decrement ++ [Drop.Release])).panic = none ∧
    ((dropAll M (splitN s b n) b
      (List.replicate n Drop.Decrement ++ [Drop.Release])).state.heap b).refCount = 0 ∧
    (dropAll M (splitN s b n) b
      (List.replicate n Drop.Decrement ++ [Drop.Release])).state.bufferPool.items
        = s.bufferPool.items ++ [b] ∧
    (dropAll M (splitN s b n) b
      (List.replicate n Drop.Decrement ++ [Drop.Release])).state.largeBufferPool
        = s.largeBufferPool := by
  obtain ⟨f1, f2, f3, f4⟩ := splitN_frame s b n
  have hc : ((splitN s b n).heap b).refCount = wrapInt (1 + (n : Int)) := by
    rw [splitN_count s b n (by rw [h1]; decide) (by rw [h1]; decide), h1]
  have hcap2 : ((splitN s b n).heap b).Data.cap = ((splitN s b n).heap b).packetSize := by
    rw [f1, f2]; exact hcap
  cases n with
  | zero =>
    have hc0 : ((splitN s b 0).heap b).refCount = ((0 : Nat) : Int) + 1 := by
      rw [hc]; decide
    obtain ⟨r1, r2, r3, r4⟩ :=
      dropAll_decrements_release M b 0 (splitN s b 0) hc0 (by decide) hcap2
    exact ⟨r1, r2, by rw [r3, f3], r4.trans f4⟩
  | succ m =>
    have hm : ((m : Int) + 1) ≤ maxInt := by push_cast at hn; exact hn
    have hw : wrapInt (((splitN s b (m + 1)).heap b).refCount - 1) = (m : Int) + 1 := by
      rw [hc]
      simp only [wrapInt, maxInt] at *
      push_cast
      omega
    obtain ⟨d2, d3, d4, d5, d6⟩ := Decrement_count (splitN s b (m + 1)) b
    have d1 := Decrement_ok (splitN s b (m + 1)) b (by rw [hw]; omega)
    have hc2 : ((Decrement (splitN s b (m + 1)) b).state.heap b).Data.cap =
        ((Decrement (splitN s b (m + 1)) b).state.heap b).packetSize := by
      rw [d3, d4]; exact hcap2
    obtain ⟨r1, r2, r3, r4⟩ :=
      dropAll_decrements_release M b m (Decrement (splitN s b (m + 1)) b).state
        (d2.trans hw) hm hc2
    rw [List.replicate_succ, List.cons_append,
      dropAll_Decrement_ok M (splitN s b (m + 1)) b _ d1]
    exact ⟨r1, r2, by rw [r3, d5, f3], (r4.trans d6).trans f4⟩

/-- C7, amended: for every `n < 1<<63` and every buffer that `getPacketBuffer` returns in
a state satisfying the invariant of reachable states (it returns one when it takes a
cached buffer or its constructor is bound to a size `make` accepts), `n` calls of `Split`
followed by `n` calls of `Decrement` and then one call of `Release` do not panic, leave
`refCount` at 0 and add the buffer to the standard pool exactly once, leaving the large
pool as it was; a newly built buffer is then in the standard pool exactly once. -/
theorem splits_decrements_release (M : Nat) (s : State) (size : ByteCount)
    (choice : Option Nat) (n : Nat) (hs : Inv s) (hn : (n : Int) ≤ maxInt)
    (hret : s.bufferPool.take choice ≠ none ∨ standardSize s size ≤ maxAlloc) :
    ∃ b, (getPacketBuffer s size choice).2 = Ret.ok b ∧
      (dropAll M (splitN (getPacketBuffer s size choice).1 b n) b
        (List.replicate n Drop.Decrement ++ [Drop.Release])).panic = none ∧
      ((dropAll M (splitN (getPacketBuffer s size choice).1 b n) b
        (List.replicate n Drop.Decrement ++ [Drop.Release])).state.heap b).refCount = 0 ∧
      (dropAll M (splitN (getPacketBuffer s size choice).1 b n) b
        (List.replicate n Drop.Decrement ++ [Drop.Release])).state.bufferPool.items
          = (getPacketBuffer s size choice).1.bufferPool.items ++ [b] ∧
      (dropAll M (splitN (getPacketBuffer s size choice).1 b n) b
        (List.replicate n Drop.Decrement ++ [Drop.Release])).state.largeBufferPool
          = (getPacketBuffer s size choice).1.largeBufferPool ∧
      List.count b (dropAll M (splitN (getPacketBuffer s size choice).1 b n) b
        (List.replicate n Drop.Decrement ++ [Drop.Release])).state.bufferPool.items
          = List.count b (getPacketBuffer s size choice).1.bufferPool.items + 1 ∧
      (s.bufferPool.take choice = none →
        List.count b (dropAll M (splitN (getPacketBuffer s size choice).1 b n) b
          (List.replicate n Drop.Decrement ++ [Drop.Release])).state.bufferPool.items = 1) := by
  obtain ⟨b, hb, _, hrc, hcap, hfresh⟩ := getPacketBuffer_ok hs size choice hret
  obtain ⟨r1, r2, r3, r4⟩ :=
    dropAll_after_splits M (getPacketBuffer s size choice).1 b n hrc hn hcap
  refine ⟨b, hb, r1, r2, r3, r4, ?_, ?_⟩
  · rw [r3]; simp
  · intro ht
    rw [r3]
    simp [List.count_eq_zero_of_not_mem (hfresh ht)]

/-- Witness of C7: from program start, `getPacketBuffer(1200)`, two `Split`s, two
`Decrement`s and a `Release` end without a panic. -/
theorem splits_decrements_release_witness :
    Inv State.init ∧ ((2 : Nat) : Int) ≤ maxInt ∧
    (State.init.bufferPool.take none ≠ none ∨ standardSize State.init 1200 ≤ maxAlloc) ∧
    ∃ b, (getPacketBuffer State.init 1200 none).2 = Ret.ok b ∧
      (dropAll 20480 (splitN (getPacketBuffer State.init 1200 none).1 b 2) b
        (List.replicate 2 Drop.Decrement ++ [Drop.Release])).panic = none :=
  ⟨Inv.init, by decide, Or.inr (by decide),
   (splits_decrements_release 20480 State.init 1200 none 2 Inv.init (by decide)
      (Or.inr (by decide))).imp
     (fun _ hb => ⟨hb.1, hb.2.1⟩)⟩

/-- Counterexample to C8 as stated.  At program start `getPacketBuffer(1<<62)` panics in
`make`.  For `n = 1<<63` the count has wrapped around to `minInt + 1` after the `n` calls
of `Split`, and the `Decrement` of the first round panics. -/
theorem rounds_can_panic :
    (getPacketBuffer State.init 4611686018427387904 none).2
      = Ret.panicked Panic.makeslice ∧
    ((splitN standardExample 0 9223372036854775808).heap 0).refCount = minInt + 1 ∧
    (rounds 20480 (splitN standardExample 0 9223372036854775808) 0 1).panic
      = some Panic.negativeRefCount := by
  refine ⟨by decide, ?_, rounds_first_panics 20480 _ 0 _ overflowed_Decrement_panics⟩
  rw [splitN_count standardExample 0 9223372036854775808 (by decide) (by decide),
    standardExample_buffer.1]
  decide

theorem rounds_zero (M : Nat) (s : State) (b : Ptr) :
    rounds M s b 0 = { state := s, panic := none } := rfl

theorem rounds_succ_ok (M : Nat) (s : State) (b : Ptr) (k : Nat)
    (h : (rounds M s b k).panic = none) :
    rounds M s b (k + 1) = round M (rounds M s b k).state b := by
  simp only [rounds, Outcome.andThen, h]

/-- The last of `n + 1` rounds on a buffer that `n ≤ maxInt` calls of `Split` were applied
to after its acquisition with one reference. -/
theorem rounds_after_splits (M : Nat) (s : State) (b : Ptr) (n : Nat)
    (h1 : (s.heap b).refCount = 1) (hn : (n : Int) ≤ maxInt)
    (hcap : (s.heap b).Data.cap = (s.heap b).packetSize) :
    (∀ k, 1 ≤ k → k ≤ n →
      (rounds M (splitN s b n) b k).panic = none ∧
      ((rounds M (splitN s b n) b k).state.heap b).refCount = (n : Int) + 1 - k ∧
      (rounds M (splitN s b n) b k).state.bufferPool = s.bufferPool ∧
      (rounds M (splitN s b n) b k).state.largeBufferPool = s.largeBufferPool) ∧
    (rounds M (splitN s b n) b n).panic = none ∧
    ((rounds M (splitN s b n) b n).state.heap b).refCount = 1 ∧
    ((rounds M (splitN s b n) b n).state.heap b).Data.cap =
      ((rounds M (splitN s b n) b n).state.heap b).packetSize ∧
    (rounds M (splitN s b n) b n).state.bufferPool = s.bufferPool ∧
    (rounds M (splitN s b n) b n).state.largeBufferPool = s.largeBufferPool := by
  obtain ⟨f1, f2, f3, f4⟩ := splitN_frame s b n
  have hc : ((splitN s b n).heap b).refCount = wrapInt (1 + (n : Int)) := by
    rw [splitN_count s b n (by rw [h1]; decide) (by rw [h1]; decide), h1]
  have hcap2 : ((splitN s b n).heap b).Data.cap = ((splitN s b n).heap b).packetSize := by
    rw [f1, f2]; exact hcap
  have hw : 1 ≤ n → wrapInt (((splitN s b n).heap b).refCount - 1) = (n : Int) := by
    intro h
    rw [hc]
    simp only [wrapInt, maxInt] at *
    omega
  have hall : ∀ k, 1 ≤ k → k ≤ n →
      (rounds M (splitN s b n) b k).panic = none ∧
      ((rounds M (splitN s b n) b k).state.heap b).refCount = (n : Int) + 1 - k ∧
      ((rounds M (splitN s b n) b k).state.heap b).Data = ((splitN s b n).heap b).Data ∧
      ((rounds M (splitN s b n) b k).state.heap b).packetSize
        = ((splitN s b n).heap b).packetSize ∧
      (rounds M (splitN s b n) b k).state.bufferPool = s.bufferPool ∧
      (rounds M (splitN s b n) b k).state.largeBufferPool = s.largeBufferPool := by
    intro k hk1 hkn
    obtain ⟨j, rfl⟩ : ∃ j, k = j + 1 := ⟨k - 1, by omega⟩
    obtain ⟨i1, i2, i3, i4, i5, i6⟩ :=
      rounds_spec M (splitN s b n) b n (hw (by omega)) hn j hkn
    exact ⟨i1, i2, i3, i4, i5.trans f3, i6.trans f4⟩
  refine ⟨fun k hk1 hkn => ?_, ?_⟩
  · obtain ⟨i1, i2, _, _, i5, i6⟩ := hall k hk1 hkn
    exact ⟨i1, i2, i5, i6⟩
  · cases n with
    | zero =>
      rw [rounds_zero]
      exact ⟨rfl, h1, hcap, rfl, rfl⟩
    | succ m =>
      obtain ⟨i1, i2, i3, i4, i5, i6⟩ := hall (m + 1) (by omega) (le_refl _)
      refine ⟨i1, ?_, ?_, i5, i6⟩
      · rw [i2]; push_cast; ring
      · rw [i3, i4]; exact hcap2

/-- C8, amended: for every `n < 1<<63`, in a state satisfying the invariant of reachable
states, a call of `getPacketBuffer(size)` that takes a cached buffer or whose constructor
is bound to a size `make` accepts returns a buffer; after `n` calls of `Split` its count
is `n + 1` (when `n + 1` is an `int`) and the pools are as the acquisition left them; the
following `n + 1` rounds of `Decrement` then `MaybeRelease` never panic; after round `k`,
for `1 ≤ k ≤ n`, the count is `n + 1 - k` and both pools are still as the acquisition left
them; the last `Decrement` brings the count to 0 and the last `MaybeRelease` adds the
buffer to the standard pool once, leaving the large pool as it was. -/
theorem split_then_rounds (M : Nat) (s : State) (size : ByteCount) (choice : Option Nat)
    (n : Nat) (hs : Inv s) (hn : (n : Int) ≤ maxInt)
    (hret : s.bufferPool.take choice ≠ none ∨ standardSize s size ≤ maxAlloc) :
    ∃ b, (getPacketBuffer s size choice).2 = Ret.ok b ∧
      ((n : Int) < maxInt →
        ((splitN (getPacketBuffer s size choice).1 b n).heap b).refCount = (n : Int) + 1) ∧
      (splitN (getPacketBuffer s size choice).1 b n).bufferPool
        = (getPacketBuffer s size choice).1.bufferPool ∧
      (splitN (getPacketBuffer s size choice).1 b n).largeBufferPool
        = (getPacketBuffer s size choice).1.largeBufferPool ∧
      (∀ k, 1 ≤ k → k ≤ n →
        (rounds M (splitN (getPacketBuffer s size choice).1 b n) b k).panic = none ∧
        ((rounds M (splitN (getPacketBuffer s size choice).1 b n) b k).state.heap b).refCount
          = (n : Int) + 1 - k ∧
        (rounds M (splitN (getPacketBuffer s size choice).1 b n) b k).state.bufferPool
          = (getPacketBuffer s size choice).1.bufferPool ∧
        (rounds M (splitN (getPacketBuffer s size choice).1 b n) b k).state.largeBufferPool
          = (getPacketBuffer s size choice).1.largeBufferPool) ∧
      ((Decrement (rounds M (splitN (getPacketBuffer s size choice).1 b n) b n).state
          b).state.heap b).refCount = 0 ∧
      (rounds M (splitN (getPacketBuffer s size choice).1 b n) b (n + 1)).panic = none ∧
      ((rounds M (splitN (getPacketBuffer s size choice).1 b n) b (n + 1)).state.heap
          b).refCount = 0 ∧
      (rounds M (splitN (getPacketBuffer s size choice).1 b n) b (n + 1)).state.bufferPool.items
        = (getPacketBuffer s size choice).1.bufferPool.items ++ [b] ∧
      (rounds M (splitN (getPacketBuffer s size choice).1 b n) b
          (n + 1)).state.largeBufferPool
        = (getPacketBuffer s size choice).1.largeBufferPool := by
  obtain ⟨b, hb, _, hrc, hcap, _⟩ := getPacketBuffer_ok hs size choice hret
  obtain ⟨_, _, f3, f4⟩ := splitN_frame (getPacketBuffer s size choice).1 b n
  obtain ⟨hall, l1, l2, l3, l4, l5⟩ :=
    rounds_after_splits M (getPacketBuffer s size choice).1 b n hrc hn hcap
  obtain ⟨r1, r2, r3, r4⟩ :=
    round_last M (rounds M (splitN (getPacketBuffer s size choice).1 b n) b n).state b l2 l3
  obtain ⟨_, d2, _⟩ :=
    Decrement_pos (rounds M (splitN (getPacketBuffer s size choice).1 b n) b n).state b
      (by rw [l2]) (by rw [l2]; decide)
  refine ⟨b, hb, ?_, f3, f4, hall, by rw [d2, l2]; rfl, ?_⟩
  · intro hlt
    rw [splitN_count _ b n (by rw [hrc]; decide) (by rw [hrc]; decide), hrc]
    rw [wrapInt_of_range _ (by simp only [minInt]; omega) (by omega)]
    ring
  · rw [rounds_succ_ok M _ b n l1]
    exact ⟨r1, r2, by rw [r3, l4], r4.trans l5⟩

/-- Witness of C8, the spec's scenario: from program start, `getPacketBuffer(1200)`
returns buffer `0`; after `Split` the count is 2, after the first round 1 with an empty
pool, and after the second round 0 with the buffer in the standard pool. -/
theorem split_then_rounds_witness :
    Inv State.init ∧ ((1 : Nat) : Int) ≤ maxInt ∧
    (State.init.bufferPool.take none ≠ none ∨ standardSize State.init 1200 ≤ maxAlloc) ∧
    ((splitN standardExample 0 1).heap 0).refCount = 2 ∧
    ((rounds 20480 (splitN standardExample 0 1) 0 1).state.heap 0).refCount = 1 ∧
    (rounds 20480 (splitN standardExample 0 1) 0 1).state.bufferPool.items = [] ∧
    ((rounds 20480 (splitN standardExample 0 1) 0 2).state.heap 0).refCount = 0 ∧
    (rounds 20480 (splitN standardExample 0 1) 0 2).state.bufferPool.items = [0] ∧
    ∃ b, (getPacketBuffer State.init 1200 none).2 = Ret.ok b ∧
      (rounds 20480 (splitN (getPacketBuffer State.init 1200 none).1 b 1) b 2).panic = none :=
  ⟨Inv.init, by decide, Or.inr (by decide), by decide, by decide, by decide, by decide,
   by decide,
   (split_then_rounds 20480 State.init 1200 none 1 Inv.init (by decide)
      (Or.inr (by decide))).imp
     (fun _ hb => ⟨hb.1, hb.2.2.2.2.2.2.1⟩)⟩

theorem getPacketBuffer_miss_builds (t : State) (size : ByteCount) (choice : Option Nat)
    (k : ByteCount) (ho : t.getBufferOnce = true) (hk : t.bufferPool.New = some k)
    (ht : t.bufferPool.take choice = none) :
    (k ≤ maxAlloc →
      (getPacketBuffer t size choice).2 = Ret.ok t.next ∧
      Cap (getPacketBuffer t size choice).1 t.next = k ∧
      ((getPacketBuffer t size choice).1.heap t.next).packetSize = k) ∧
    (maxAlloc < k →
      (getPacketBuffer t size choice).2 = Ret.panicked Panic.makeslice ∧
      (getPacketBuffer t size choice).1.next = t.next) := by
  have hn : (getBufferOnceDo t size).bufferPool.New = some k := by
    rw [getBufferOnceDo_New, ho]; exact hk
  constructor
  · intro hm
    rw [getPacketBuffer_miss t size choice k ht hn hm]
    simp [Cap, resetBuf, State.alloc, State.store, Slice.truncate,
      (getBufferOnceDo_heap t size).2.1]
  · intro hm
    rw [getPacketBuffer_makeslice t size choice k ht hn hm]
    exact ⟨rfl, (getBufferOnceDo_heap t size).2.1⟩

theorem getLargePacketBuffer_miss_builds (t : State) (size : ByteCount) (choice : Option Nat)
    (k : ByteCount) (ho : t.getLargeBufferOnce = true) (hk : t.largeBufferPool.New = some k)
    (ht : t.largeBufferPool.take choice = none) :
    (k ≤ maxAlloc →
      (getLargePacketBuffer t size choice).2 = Ret.ok t.next ∧
      Cap (getLargePacketBuffer t size choice).1 t.next = k ∧
      ((getLargePacketBuffer t size choice).1.heap t.next).packetSize = k) ∧
    (maxAlloc < k →
      (getLargePacketBuffer t size choice).2 = Ret.panicked Panic.makeslice ∧
      (getLargePacketBuffer t size choice).1.next = t.next) := by
  have hn : (getLargeBufferOnceDo t size).largeBufferPool.New = some k := by
    rw [getLargeBufferOnceDo_New, ho]; exact hk
  constructor
  · intro hm
    rw [getLargePacketBuffer_miss t size choice k ht hn hm]
    simp [Cap, resetBuf, State.alloc, State.store, Slice.truncate,
      (getLargeBufferOnceDo_heap t size).2.1]
  · intro hm
    rw [getLargePacketBuffer_makeslice t size choice k ht hn hm]
    exact ⟨rfl, (getLargeBufferOnceDo_heap t size).2.1⟩

/-- C11: first call wins.  When `getPacketBuffer(first)` is the first call on the standard
tier, then after any further calls, with any sizes, the tier's `New` is still the
constructor bound to `first`.  Every later `getPacketBuffer(size)` that misses the cache
runs that constructor whatever `size` is: when `make` accepts `first` it returns a new
buffer with `cap(Data) = first` and `packetSize = first`, and otherwise it panics in `make`
and constructs no buffer.  Likewise for `getLargePacketBuffer` and the large tier. -/
theorem first_call_wins (M : Nat) (s : State) (first : ByteCount) (c1 : Option Nat)
    (cs : List Call) (size : ByteCount) (choice : Option Nat) :
    (s.getBufferOnce = false →
      (execAll M (getPacketBuffer s first c1).1 cs).state.bufferPool.New = some first ∧
      ((execAll M (getPacketBuffer s first c1).1 cs).state.bufferPool.take choice = none →
        (first ≤ maxAlloc →
          (getPacketBuffer (execAll M (getPacketBuffer s first c1).1 cs).state size choice).2
            = Ret.ok (execAll M (getPacketBuffer s first c1).1 cs).state.next ∧
          Cap (getPacketBuffer (execAll M (getPacketBuffer s first c1).1 cs).state size
            choice).1 (execAll M (getPacketBuffer s first c1).1 cs).state.next = first ∧
          ((getPacketBuffer (execAll M (getPacketBuffer s first c1).1 cs).state size
            choice).1.heap
            (execAll M (getPacketBuffer s first c1).1 cs).state.next).packetSize = first) ∧
        (maxAlloc < first →
          (getPacketBuffer (execAll M (getPacketBuffer s first c1).1 cs).state size choice).2
            = Ret.panicked Panic.makeslice ∧
          (getPacketBuffer (execAll M (getPacketBuffer s first c1).1 cs).state size
            choice).1.next = (execAll M (getPacketBuffer s first c1).1 cs).state.next))) ∧
    (s.getLargeBufferOnce = false →
      (execAll M (getLargePacketBuffer s first c1).1 cs).state.largeBufferPool.New
        = some first ∧
      ((execAll M (getLargePacketBuffer s first c1).1 cs).state.largeBufferPool.take choice
          = none →
        (first ≤ maxAlloc →
          (getLargePacketBuffer (execAll M (getLargePacketBuffer s first c1).1 cs).state size
            choice).2 = Ret.ok (execAll M (getLargePacketBuffer s first c1).1 cs).state.next ∧
          Cap (getLargePacketBuffer (execAll M (getLargePacketBuffer s first c1).1 cs).state
            size choice).1 (execAll M (getLargePacketBuffer s first c1).1 cs).state.next
              = first ∧
          ((getLargePacketBuffer (execAll M (getLargePacketBuffer s first c1).1 cs).state size
            choice).1.heap
            (execAll M (getLargePacketBuffer s first c1).1 cs).state.next).packetSize
              = first) ∧
        (maxAlloc < first →
          (getLargePacketBuffer (execAll M (getLargePacketBuffer s first c1).1 cs).state size
            choice).2 = Ret.panicked Panic.makeslice ∧
          (getLargePacketBuffer (execAll M (getLargePacketBuffer s first c1).1 cs).state size
            choice).1.next
              = (execAll M (getLargePacketBuffer s first c1).1 cs).state.next))) := by
  constructor
  · intro h
    obtain ⟨g1, g2, _, _⟩ := getPacketBuffer_binding s first c1
    rw [h] at g2
    obtain ⟨e1, e2⟩ := (execAll_binding M cs (getPacketBuffer s first c1).1).1 g1
    have hN : (execAll M (getPacketBuffer s first c1).1 cs).state.bufferPool.New
        = some first := by rw [e2, g2]; rfl
    exact ⟨hN, fun ht => getPacketBuffer_miss_builds _ size choice first e1 hN ht⟩
  · intro h
    obtain ⟨g1, g2, _, _⟩ := getLargePacketBuffer_binding s first c1
    rw [h] at g2
    obtain ⟨e1, e2⟩ := (execAll_binding M cs (getLargePacketBuffer s first c1).1).2 g1
    have hN : (execAll M (getLargePacketBuffer s first c1).1 cs).state.largeBufferPool.New
        = some first := by rw [e2, g2]; rfl
    exact ⟨hN, fun ht => getLargePacketBuffer_miss_builds _ size choice first e1 hN ht⟩

/-- Witness of C11: from program start, `getPacketBuffer(1200)`, then a `Split` and a
`getPacketBuffer(9000)`, then `getPacketBuffer(4000)` missing the cache: the buffer built
last has capacity 1200. -/
theorem first_call_wins_witness :
    State.init.getBufferOnce = false ∧
    Cap (getPacketBuffer (execAll 20480 (getPacketBuffer State.init 1200 none).1
        [Call.Split 0, Call.getPacketBuffer 9000 none]).state 4000 none).1 2 = 1200 ∧
    (execAll 20480 (getPacketBuffer State.init 1200 none).1
        [Call.Split 0, Call.getPacketBuffer 9000 none]).state.bufferPool.New = some 1200 :=
  ⟨rfl, by decide,
   ((first_call_wins 20480 State.init 1200 none
      [Call.Split 0, Call.getPacketBuffer 9000 none] 4000 none).1 rfl).1⟩

/-- Counterexample to C12 as stated.  On a new standard buffer, a second `Decrement`
panics with the negative-count failure and leaves `refCount` at -1.  And after
`1<<63 - 2` calls of `Split` the count is `maxInt`, where one more `Split` wraps it to
`minInt`, a negative count, without any panic. -/
theorem failed_Decrement_leaves_negative_count :
    ((standardExample.heap 0).refCount = 1 ∧
     (Decrement standardExample 0).panic = none ∧
     (Decrement (Decrement standardExample 0).state 0).panic
       = some Panic.negativeRefCount ∧
     ((Decrement (Decrement standardExample 0).state 0).state.heap 0).refCount = -1) ∧
    (saturatedExample.heap 0).refCount = maxInt ∧
    (exec 20480 saturatedExample (Call.Split 0)).panic = none ∧
    ((exec 20480 saturatedExample (Call.Split 0)).state.heap 0).refCount = minInt ∧
    ((exec 20480 saturatedExample (Call.Split 0)).state.heap 0).refCount < 0 := by
  have h : ((exec 20480 saturatedExample (Call.Split 0)).state.heap 0).refCount = minInt := by
    show ((Split saturatedExample 0).heap 0).refCount = minInt
    rw [(Split_count saturatedExample 0).1, saturatedExample_count]
    decide
  refine ⟨by decide, saturatedExample_count, rfl, h, ?_⟩
  rw [h]
  decide

/-- C12, amended: a buffer whose `refCount` is a non-negative `int` (as it is after
acquisition, where it is 1) still has a non-negative `refCount` after any sequence of
acquisitions and of `Split`, `Decrement`, `MaybeRelease` and `Release` calls, also when the
sequence ends in a panic, provided the panic is not the negative-count failure and no
`Split` of the sequence was applied to the buffer at count `maxInt`. -/
theorem refCount_stays_nonneg (M : Nat) (s : State) (cs : List Call) (p : Ptr)
    (h0 : 0 ≤ (s.heap p).refCount) (hmax : (s.heap p).refCount ≤ maxInt)
    (hneg : (execAll M s cs).panic ≠ some Panic.negativeRefCount)
    (hov : noSplitOverflow M p s cs) :
    0 ≤ ((execAll M s cs).state.heap p).refCount :=
  (execAll_keeps M p cs s ⟨h0, hmax⟩ hneg hov).1

/-- Witness of C12: on a new standard buffer, `Split` followed by two calls of `Release`
ends in the not-zero failure of the first `Release`, with no `Split` at `maxInt`, and
leaves the buffer with a non-negative count. -/
theorem refCount_stays_nonneg_witness :
    0 ≤ (standardExample.heap 0).refCount ∧
    (standardExample.heap 0).refCount ≤ maxInt ∧
    (execAll 20480 standardExample
      [Call.Split 0, Call.Release 0, Call.Release 0]).panic
        = some Panic.refCountNotZero ∧
    noSplitOverflow 20480 0 standardExample [Call.Split 0, Call.Release 0, Call.Release 0] ∧
    0 ≤ ((execAll 20480 standardExample
      [Call.Split 0, Call.Release 0, Call.Release 0]).state.heap 0).refCount :=
  have hov : noSplitOverflow 20480 0 standardExample
      [Call.Split 0, Call.Release 0, Call.Release 0] := by
    refine ⟨fun _ => by decide, fun _ => ⟨fun h => (by cases h), fun h => ?_⟩⟩
    exact absurd h (by decide)
  ⟨by decide, by decide, by decide, hov,
   refCount_stays_nonneg 20480 standardExample
     [Call.Split 0, Call.Release 0, Call.Release 0] 0 (by decide) (by decide)
     (by decide) hov⟩

end BufferPool
